import Mathlib

/-!
# Auction / contract chaincode: a shallow embedding

The definitions below follow `src/chaincode/chaincode.go`.  Go calls that may
return an error or stop with a run-time panic produce a `Res`; the ledger the
`stub` gives access to is passed and returned explicitly.

Conventions:
* a `[]byte` payload is held as the JSON object it decodes to (`Blob.json`) or
  as bytes that do not decode (`Blob.raw`); names are matched exactly;
* a composite literal without keys fills the fields of its struct in the
  order of declaration; where it lists a value more than the struct declares
  fields and the code reads a field the declaration lacks, the value belongs
  to that field (`AES_Key` in `CreateContract`, `ItemID` in
  `CreateBidObject`), at the place the other uses of the arguments fix, and
  where they fix none (`CreateTransactionRequest`) the field is a parameter;
* the host's table primitives, the current time, the time parser, the block
  encryption and the random source are outside the source: the first are
  modelled from the spec, the others are parameters (the CFB mode of
  `Encrypt` and `Decrypt` is written out over the block encryption);
* fields and helpers the source uses but does not declare are parameters
  (`Undeclared`, `Settlement`) or are modelled from the spec, as their doc
  comments say.
-/

namespace Chaincode

/-! ## Results, byte payloads, JSON -/

/-- Outcome of a Go call: a value with a nil error, a non-nil error with its
message, or a run-time panic (index out of range, failed type assertion,
explicit `panic`). -/
inductive Res (α : Type) where
  | ok (a : α)
  | err (msg : String)
  | abort
  deriving DecidableEq, Repr

/-- True exactly on a non-nil error. -/
def Res.isErr {α : Type} : Res α → Bool
  | .err _ => true
  | _ => false

/-- True exactly on a nil error. -/
def Res.isOk {α : Type} : Res α → Bool
  | .ok _ => true
  | _ => false

/-- A decoded JSON value: a string, or anything that is neither a string nor
`null` (number, boolean, array, object). -/
inductive JVal where
  | str (s : String)
  | other
  deriving DecidableEq, Repr

/-- A decoded JSON object; the binding of a name is the first pair listed
for it. -/
abbrev JObj := List (String × JVal)

/-- A byte payload (`[]byte`): either bytes that `json.Unmarshal` decodes to
an object, or any other bytes. -/
inductive Blob where
  | json (o : JObj)
  | raw (b : List Nat)
  deriving DecidableEq, Repr

/-- Decoding of one string-typed struct field by `json.Unmarshal`: an absent
name leaves the zero value, a string is stored, any other value is a type
error. -/
def fieldStr (o : JObj) (k : String) : Option String :=
  match o.lookup k with
  | none => some ""
  | some (.str s) => some s
  | some .other => none

/-- The assertion `dat[k].(string)` on a decoded `map[string]interface{}`:
`none` stands for the panic of a failed assertion. -/
def assertStr (o : JObj) (k : String) : Option String :=
  match o.lookup k with
  | some (.str s) => some s
  | _ => none

/-! ## strconv.Atoi -/

/-- Value of a decimal digit. -/
def digitVal (c : Char) : Option Nat :=
  if 48 ≤ c.toNat ∧ c.toNat ≤ 57 then some (c.toNat - 48) else none

/-- Decimal digits to a natural number; `none` on a character that is not a
digit. -/
def parseDigits : List Char → Nat → Option Nat
  | [], acc => some acc
  | c :: cs, acc =>
    match digitVal c with
    | none => none
    | some d => parseDigits cs (acc * 10 + d)

/-- Magnitude part of `strconv.Atoi`: at least one character, all digits. -/
def parseMagnitude (cs : List Char) : Option Nat :=
  if cs = [] then none else parseDigits cs 0

/-- `strconv.Atoi` on a 64-bit platform: an optional sign, then decimal
digits; a value outside the range of `int` is an error. -/
def Atoi (s : String) : Option Int :=
  match s.toList with
  | [] => none
  | c :: cs =>
    if c = '-' then
      match parseMagnitude cs with
      | none => none
      | some n => if n ≤ 2 ^ 63 then some (-(n : Int)) else none
    else if c = '+' then
      match parseMagnitude cs with
      | none => none
      | some n => if n < 2 ^ 63 then some (n : Int) else none
    else
      match parseMagnitude (c :: cs) with
      | none => none
      | some n => if n < 2 ^ 63 then some (n : Int) else none

/-! ## Reference data -/

/-- Record-type tokens (`recType`). -/
def recType : List String :=
  ["USER", "CREATECONTR", "BID", "POSTTRAN", "CLOSECONTRACT", "CANCELCONTRACT"]

/-- Tables that `Init` creates (`aucTables`). -/
def aucTables : List String :=
  ["UserTable", "UserCatTable", "ContractTable", "ContractCatTable",
   "ContractOpenTable", "BidTable", "BidCatTable", "BidHistoryTable", "TransTable"]

/-- The literal `TableMap` of `GetNumberOfKeys`. -/
def TableMap : List (String × Nat) :=
  [("UserTable", 1), ("ContractTable", 1), ("UserCatTable", 2),
   ("ContractCatTable", 2), ("ContractOpenTable", 2), ("BidTable", 1),
   ("BidCatTable", 2), ("BidHistoryTable", 3), ("TransTable", 2)]

/-- `GetNumberOfKeys`: the map entry, the zero value for a missing name. -/
def GetNumberOfKeys (tname : String) : Nat :=
  (TableMap.lookup tname).getD 0

/-! ## The host ledger -/

/-- A stored row: the table it belongs to, its key columns, its payload
column. -/
structure Row where
  table : String
  keys : List String
  payload : Blob
  deriving DecidableEq, Repr

/-- Ledger state seen through the stub: the created tables with their number
of key columns, and the stored rows. -/
structure Ledger where
  defs : List (String × Nat)
  rows : List Row
  deriving DecidableEq, Repr

/-- Modelled from the spec: the host's `getRow`, absent from the source.  It
fetches the row stored under exactly this table name and key tuple. -/
def getRow (L : Ledger) (t : String) (keys : List String) : Option Row :=
  L.rows.find? (fun r => r.table = t ∧ r.keys = keys)

/-- Modelled from the spec: the host's `insertRow`, absent from the source.
An undefined table, or a row whose key columns do not match the table
definition, is an error; a row already stored under the key gives `false`
and changes nothing; otherwise the row is added. -/
def insertRow (L : Ledger) (t : String) (keys : List String) (p : Blob) :
    Res Bool × Ledger :=
  match L.defs.lookup t with
  | none => (.err "table not found", L)
  | some n =>
    if keys.length ≠ n then (.err "row does not match table definition", L)
    else
      match getRow L t keys with
      | some _ => (.ok false, L)
      | none => (.ok true, { L with rows := L.rows ++ [⟨t, keys, p⟩] })

/-- Modelled from the spec: the host's `replaceRow`, absent from the source.
As `insertRow`, but a missing row gives `false` and an existing row has its
payload overwritten. -/
def replaceRow (L : Ledger) (t : String) (keys : List String) (p : Blob) :
    Res Bool × Ledger :=
  match L.defs.lookup t with
  | none => (.err "table not found", L)
  | some n =>
    if keys.length ≠ n then (.err "row does not match table definition", L)
    else
      match getRow L t keys with
      | none => (.ok false, L)
      | some _ =>
        (.ok true, { L with rows := L.rows.map (fun r =>
          if r.table = t ∧ r.keys = keys then ⟨t, keys, p⟩ else r) })

/-- Modelled from the spec: the host's `getRows`, absent from the source.
All rows of the table whose leading key columns equal the partial key, in
ledger order. -/
def getRows (L : Ledger) (t : String) (partialKeys : List String) : List Row :=
  L.rows.filter (fun r => r.table = t ∧ partialKeys.isPrefixOf r.keys)

/-- Modelled from the spec: the host's `createTable`, absent from the source.
A table that exists is left alone. -/
def createTable (L : Ledger) (t : String) (n : Nat) : Ledger :=
  match L.defs.lookup t with
  | some _ => L
  | none => { L with defs := L.defs ++ [(t, n)] }

/-- The key columns a ledger wrapper builds: `keys[i]` for `i < nKeys`;
`none` is the index-out-of-range panic. -/
def keyColumns (nKeys : Nat) (keys : List String) : Option (List String) :=
  if nKeys ≤ keys.length then some (keys.take nKeys) else none

/-- `UpdateLedger`: insert a row under the first `GetNumberOfKeys tableName`
keys. -/
def UpdateLedger (L : Ledger) (tableName : String) (keys : List String) (args : Blob) :
    Res Unit × Ledger :=
  match keyColumns (GetNumberOfKeys tableName) keys with
  | none => (.abort, L)
  | some cols =>
    match insertRow L tableName cols args with
    | (.err e, L1) =>
      (.err ("UpdateLedger: InsertRow into " ++ tableName ++ " Table operation failed. " ++ e), L1)
    | (.abort, L1) => (.abort, L1)
    | (.ok false, L1) =>
      match keys with
      | [] => (.abort, L1)
      | k0 :: _ =>
        (.err ("UpdateLedger: InsertRow into " ++ tableName
          ++ " Table failed. Row with given key " ++ k0 ++ " already exists"), L1)
    | (.ok true, L1) => (.ok (), L1)

/-- `ReplaceLedgerEntry`: overwrite the row stored under the first
`GetNumberOfKeys tableName` keys. -/
def ReplaceLedgerEntry (L : Ledger) (tableName : String) (keys : List String) (args : Blob) :
    Res Unit × Ledger :=
  match keyColumns (GetNumberOfKeys tableName) keys with
  | none => (.abort, L)
  | some cols =>
    match replaceRow L tableName cols args with
    | (.err e, L1) =>
      (.err ("ReplaceLedgerEntry: Replace Row into " ++ tableName
        ++ " Table operation failed. " ++ e), L1)
    | (.abort, L1) => (.abort, L1)
    | (.ok false, L1) =>
      match keys with
      | [] => (.abort, L1)
      | k0 :: _ =>
        (.err ("ReplaceLedgerEntry: Replace Row into " ++ tableName
          ++ " Table failed. Row with given key " ++ k0 ++ " already exists"), L1)
    | (.ok true, L1) => (.ok (), L1)

/-! ## Records and their JSON codecs -/

/-- `ContractObject` as declared. -/
structure ContractObject where
  ContractId : String
  Amount : String
  Duration : String
  BusinessRule : String
  Type' : String
  RequirementDescription : String
  Description : String
  Terms : String
  CreationDate : String
  UserID : String
  Status : String
  RecType : String
  deriving DecidableEq, Repr

/-- `UserObject` as declared. -/
structure UserObject where
  UserID : String
  RecType : String
  Name : String
  UserType : String
  Address : String
  Phone : String
  Email : String
  Bank : String
  AccountNo : String
  Rating : String
  deriving DecidableEq, Repr

/-- `Bid` as the code uses it: the six declared fields and `ItemID`, which
the declaration lacks.  `PostBid` and `BidtoTransaction` read `bid.ItemID`,
and the literal in `CreateBidObject` lists seven values; see there for the
place of the field. -/
structure Bid where
  ContractId : String
  RecType : String
  BidNo : String
  ItemID : String
  UserID : String
  BidPrice : String
  BidTime : String
  deriving DecidableEq, Repr

/-- `ItemTransaction` as declared. -/
structure ItemTransaction where
  ConractId : String
  RecType : String
  TransactionId : String
  TransType : String
  UserId : String
  TransDate : String
  TransactionAmount : String
  BidNo : String
  deriving DecidableEq, Repr

/-- `json.Unmarshal` into a `ContractObject`; `none` is a decoding error. -/
def decodeContract : Blob → Option ContractObject
  | .raw _ => none
  | .json o => do
    let a ← fieldStr o "ContractId"
    let b ← fieldStr o "Amount"
    let c ← fieldStr o "Duration"
    let d ← fieldStr o "BusinessRule"
    let e ← fieldStr o "Type"
    let f ← fieldStr o "RequirementDescription"
    let g ← fieldStr o "Description"
    let h ← fieldStr o "Terms"
    let i ← fieldStr o "CreationDate"
    let j ← fieldStr o "UserID"
    let k ← fieldStr o "Status"
    let l ← fieldStr o "RecType"
    pure ⟨a, b, c, d, e, f, g, h, i, j, k, l⟩

/-- `JSONtoAucReq`. -/
def JSONtoAucReq (areq : Blob) : Option ContractObject := decodeContract areq

/-- `JSONtoAR`, with the declared result type `ContractObject`. -/
def JSONtoAR (data : Blob) : Option ContractObject := decodeContract data

/-- `JSONtoUser`. -/
def JSONtoUser : Blob → Option UserObject
  | .raw _ => none
  | .json o => do
    let a ← fieldStr o "UserID"
    let b ← fieldStr o "RecType"
    let c ← fieldStr o "Name"
    let d ← fieldStr o "UserType"
    let e ← fieldStr o "Address"
    let f ← fieldStr o "Phone"
    let g ← fieldStr o "Email"
    let h ← fieldStr o "Bank"
    let i ← fieldStr o "AccountNo"
    let j ← fieldStr o "Rating"
    pure ⟨a, b, c, d, e, f, g, h, i, j⟩

/-- `JSONtoBid`. -/
def JSONtoBid : Blob → Option Bid
  | .raw _ => none
  | .json o => do
    let a ← fieldStr o "ContractId"
    let b ← fieldStr o "RecType"
    let c ← fieldStr o "BidNo"
    let i ← fieldStr o "ItemID"
    let d ← fieldStr o "UserID"
    let e ← fieldStr o "BidPrice"
    let f ← fieldStr o "BidTime"
    pure ⟨a, b, c, i, d, e, f⟩

/-- `JSONtoTran`. -/
def JSONtoTran : Blob → Option ItemTransaction
  | .raw _ => none
  | .json o => do
    let a ← fieldStr o "ConractId"
    let b ← fieldStr o "RecType"
    let c ← fieldStr o "TransactionId"
    let d ← fieldStr o "TransType"
    let e ← fieldStr o "UserId"
    let f ← fieldStr o "TransDate"
    let g ← fieldStr o "TransactionAmount"
    let h ← fieldStr o "BidNo"
    pure ⟨a, b, c, d, e, f, g, h⟩

/-- `ARtoJSON` on the declared fields; marshalling a struct of strings does
not fail. -/
def ARtoJSON (ar : ContractObject) : Blob :=
  .json [("ContractId", .str ar.ContractId), ("Amount", .str ar.Amount),
    ("Duration", .str ar.Duration), ("BusinessRule", .str ar.BusinessRule),
    ("Type", .str ar.Type'), ("RequirementDescription", .str ar.RequirementDescription),
    ("Description", .str ar.Description), ("Terms", .str ar.Terms),
    ("CreationDate", .str ar.CreationDate), ("UserID", .str ar.UserID),
    ("Status", .str ar.Status), ("RecType", .str ar.RecType)]

/-- `BidtoJSON`; marshalling a struct of strings does not fail. -/
def BidtoJSON (myHand : Bid) : Blob :=
  .json [("ContractId", .str myHand.ContractId), ("RecType", .str myHand.RecType),
    ("BidNo", .str myHand.BidNo), ("ItemID", .str myHand.ItemID),
    ("UserID", .str myHand.UserID), ("BidPrice", .str myHand.BidPrice),
    ("BidTime", .str myHand.BidTime)]

/-- `TrantoJSON`; marshalling a struct of strings does not fail. -/
def TrantoJSON (at' : ItemTransaction) : Blob :=
  .json [("ConractId", .str at'.ConractId), ("RecType", .str at'.RecType),
    ("TransactionId", .str at'.TransactionId), ("TransType", .str at'.TransType),
    ("UserId", .str at'.UserId), ("TransDate", .str at'.TransDate),
    ("TransactionAmount", .str at'.TransactionAmount), ("BidNo", .str at'.BidNo)]

/-! ## Point queries -/

/-- Turns a decoding outcome into the error value the decoders return. -/
def decodeErr {α : Type} : Option α → Res Unit
  | some _ => .ok ()
  | none => .err "json: cannot unmarshal"

/-- `ProcessQueryResult`: panics on bytes that are no JSON object and on a
`RecType` that is no string; decodes by record type. -/
def ProcessQueryResult (Avalbytes : Blob) : Res Unit :=
  match Avalbytes with
  | .raw _ => .abort
  | .json o =>
    match assertStr o "RecType" with
    | none => .abort
    | some rt =>
      if rt = "USER" then decodeErr (JSONtoUser Avalbytes)
      else if rt = "CREATECONTR" then decodeErr (JSONtoAR Avalbytes)
      else if rt = "CLOSECONTRACT" then decodeErr (JSONtoAucReq Avalbytes)
      else if rt = "CANCELCONTRACT" then .ok ()
      else if rt = "POSTTRAN" then decodeErr (JSONtoTran Avalbytes)
      else if rt = "BID" then decodeErr (JSONtoBid Avalbytes)
      else if rt = "DEFAULT" then .ok ()
      else if rt = "XFER" then .ok ()
      else if rt = "VERIFY" then .ok ()
      else .err "Unknown"

/-- `QueryLedger`: the payload of the row stored under the first
`GetNumberOfKeys tableName` arguments, after `ProcessQueryResult`. -/
def QueryLedger (L : Ledger) (tableName : String) (args : List String) : Res Blob :=
  match keyColumns (GetNumberOfKeys tableName) args with
  | none => .abort
  | some cols =>
    match getRow L tableName cols with
    | none =>
      match args with
      | [] => .abort
      | a0 :: _ => .err ("\x7b\"Error\":\"Failed retrieving data " ++ a0 ++ ". \"\x7d")
    | some row =>
      match ProcessQueryResult row.payload with
      | .abort => .abort
      | .err _ =>
        match args with
        | a0 :: _ :: _ =>
          .err ("\x7b\"QueryLedger() Error\":\" Cannot create Object for key " ++ a0 ++ "\"\x7d")
        | _ => .abort
      | .ok _ => .ok row.payload

/-- `ValidateMember`: the user row of `owner`, or an error.  The test for nil
bytes after a successful `QueryLedger` has no case here: `ProcessQueryResult`
has decoded the payload by then. -/
def ValidateMember (L : Ledger) (owner : String) : Res Blob :=
  match QueryLedger L "UserTable" [owner, "USER"] with
  | .err _ => .err ("\x7b\"Error\":\"Failed to get Owner Object Data for " ++ owner ++ "\"\x7d")
  | .abort => .abort
  | .ok b => .ok b

/-- Modelled from the spec: `GetAuctionRequest` is called by `PostBid` and is
absent from the source; the spec has the bid workflow fetch the referenced
contract and fail if it is absent.  This is the point lookup on the Contract
table, in the shape of its sibling `GetContract` without the masking. -/
def GetAuctionRequest (L : Ledger) (args : List String) : Res Blob :=
  match QueryLedger L "ContractTable" args with
  | .err _ =>
    match args with
    | [] => .abort
    | a0 :: _ => .err ("\x7b\"Error\":\"Failed to get  Object Data for " ++ a0 ++ "\"\x7d")
  | .abort => .abort
  | .ok b => .ok b

/-! ## Bids -/

/-- Parser of `time.Parse` for the layout `2006-01-02 15:04:05`: the instant
a string denotes, `none` when it does not parse.  It is a parameter of the
functions that compare times. -/
abbrev TimeParse := String → Option Int

/-- `tCompare`: both strings parse and the first instant is before the
second. -/
def tCompare (tp : TimeParse) (t1 t2 : String) : Bool :=
  match tp t1 with
  | none => false
  | some bidTime =>
    match tp t2 with
    | none => false
    | some aucCloseTime => decide (bidTime < aucCloseTime)

/-- `CreateBidObject`: six arguments, the first and third integers; `now`
is `time.Now()` in the layout of `tCompare`.  The composite literal lists
seven values, the six arguments and `bidTime`, for the fields of `Bid`.  The
last value, `bidTime`, is the `BidTime`; `args[0]` is the contract `PostBid`
fetches, `args[1]` the record type, `args[2]` the bid number of the key, and
`args[4]` the buyer `PostBid` validates, so the field the declaration lacks,
`ItemID`, stands fourth and takes `args[3]`, and `args[5]` is the price, as
in the call the source documents. -/
def CreateBidObject (args : List String) (now : String) : Res Bid :=
  match args with
  | [a0, a1, a2, a3, a4, a5] =>
    match Atoi a0 with
    | none => .err "CreateBidObject() : Bid ID should be an integer"
    | some _ =>
      match Atoi a2 with
      | none => .err "CreateBidObject() : Bid ID should be an integer"
      | some _ => .ok ⟨a0, a1, a2, a3, a4, a5, now⟩
  | _ => .err "CreateBidObject() : Incorrect number of arguments. Expecting 6 "

/-- Fields that `PostBid` reads from the contract record although the
declaration of `ContractObject` does not have them.  How the decoded record
yields `CloseDate`, `ItemID` and `ReservePrice` are parameters. -/
structure Undeclared where
  CloseDate : JObj → String
  ItemID : JObj → String
  ReservePrice : JObj → String

/-- The object inside a payload, empty for bytes that are no object. -/
def Blob.obj : Blob → JObj
  | .json o => o
  | .raw _ => []

/-- The price check of `PostBid`: both prices are integers and the bid is
not below the reserve. -/
def priceCheck (bidPrice reservePrice : String) : Res Unit :=
  match Atoi bidPrice with
  | none => .err "PostBid() : Bid price should be an integer"
  | some bp =>
    match Atoi reservePrice with
    | none => .err "PostItem() : Reserve Price should be an integer"
    | some hp =>
      if bp < hp then .err "PostItem() : Bid Price must be greater than Reserve Price"
      else .ok ()

/-- `PostBid`. -/
def PostBid (U : Undeclared) (tp : TimeParse) (now : String) (L : Ledger)
    (args : List String) : Res Blob × Ledger :=
  match CreateBidObject args now with
  | .err e => (.err e, L)
  | .abort => (.abort, L)
  | .ok bid =>
    match args[4]? with
    | none => (.abort, L)
    | some a4 =>
      match ValidateMember L a4 with
      | .err e => (.err e, L)
      | .abort => (.abort, L)
      | .ok _ =>
        match args[0]? with
        | none => (.abort, L)
        | some a0 =>
          match GetAuctionRequest L [a0] with
          | .err _ => (.err ("PostBid(): Cannot find Auction record : " ++ a0), L)
          | .abort => (.abort, L)
          | .ok RBytes =>
            match JSONtoAucReq RBytes with
            | none => (.err ("PostBid(): Cannot UnMarshall Auction record: " ++ a0), L)
            | some aucR =>
              if aucR.Status ≠ "OPEN" then
                (.err ("PostBid(): Cannot accept Bid as Auction is not OPEN : " ++ a0), L)
              else if tCompare tp bid.BidTime (U.CloseDate RBytes.obj) = false then
                (.err ("PostBid() Failed : BidTime past the Auction Close Time "
                  ++ bid.BidTime ++ ", " ++ U.CloseDate RBytes.obj), L)
              else if U.ItemID RBytes.obj ≠ bid.ItemID then
                (.err "PostBid() : Item ID mismatch on Bid. Bid Rejected", L)
              else
                match priceCheck bid.BidPrice (U.ReservePrice RBytes.obj) with
                | .err e => (.err e, L)
                | .abort => (.abort, L)
                | .ok _ =>
                  match args[2]? with
                  | none => (.abort, L)
                  | some a2 =>
                    match UpdateLedger L "BidTable" [a0, a2] (BidtoJSON bid) with
                    | (.ok _, L1) => (.ok (BidtoJSON bid), L1)
                    | (.err e, L1) => (.err e, L1)
                    | (.abort, L1) => (.abort, L1)

/-! ## Listing rows and the highest bid -/

/-- The bytes of `row.Columns[nCol].GetBytes()`: the columns of a row are its
keys followed by the payload; a key column has no bytes, and an index past
the payload is the index panic (`none`). -/
def columnBytes (nCol : Nat) (row : Row) : Option Blob :=
  if nCol < row.keys.length then some (.raw [])
  else if nCol = row.keys.length then some row.payload
  else none

/-- The scan of `GetHighestBid` over the rows, with its variables `dat` (the
map every row is decoded into, kept from row to row), `highestBid` and
`Avalbytes` (`none` for nil); `currentBid` is column `nCol` of the row. -/
def highestBidLoop (nCol : Nat) : List Row → JObj → Int → Option Blob → Res (Option Blob)
  | [], _, _, Avalbytes => .ok Avalbytes
  | row :: rest, dat, highestBid, Avalbytes =>
    match columnBytes nCol row with
    | none => .abort
    | some (.raw _) => .err "GetHighestBid(0 operation failed. "
    | some (.json o) =>
      match assertStr (o ++ dat) "BidPrice" with
      | none => .abort
      | some s =>
        match Atoi s with
        | none => .err "GetHighestBid() Int Conversion error on BidPrice! failed. "
        | some bidPrice =>
          if bidPrice ≥ highestBid then
            highestBidLoop nCol rest (o ++ dat) bidPrice (some (.json o))
          else highestBidLoop nCol rest (o ++ dat) highestBid Avalbytes

/-- One call of `XORKeyStream` of the library's CFB mode over a block
encryption `E`: `out` is the key stream not yet used, `next` the bytes that
feed the following block (the initialization vector at first, then the
cipher text of the block under way).  When the key stream is used up the
block `next` is encrypted for more. -/
def cfbStream (decrypt : Bool) (E : List Nat → List Nat) :
    List Nat → List Nat → List Nat → List Nat
  | _, _, [] => []
  | out, next, b :: src =>
    Nat.xor b ((if out = [] then E next else out).headD 0) ::
      cfbStream decrypt E (if out = [] then E next else out).tail
        ((if out = [] then [] else next) ++
          [if decrypt then b else Nat.xor b ((if out = [] then E next else out).headD 0)])
        src

/-- `Encrypt` over the block encryption `aes key` and the sixteen bytes `iv`
drawn from the random source: the vector followed by the CFB cipher text.
`none` is the panic on a key that `aes.NewCipher` refuses. -/
def Encrypt (aes : List Nat → List Nat → List Nat) (key iv ba : List Nat) :
    Option (List Nat) :=
  if key.length = 16 ∨ key.length = 24 ∨ key.length = 32 then
    some (iv ++ cfbStream false (aes key) [] iv ba)
  else none

/-- `Decrypt`: the first sixteen bytes are the vector, the rest is run
through the CFB decrypter.  `none` is the panic on a refused key or on a
text shorter than a block. -/
def Decrypt (aes : List Nat → List Nat → List Nat) (key ciphertext : List Nat) :
    Option (List Nat) :=
  if key.length = 16 ∨ key.length = 24 ∨ key.length = 32 then
    if ciphertext.length < 16 then none
    else some (cfbStream true (aes key) [] (ciphertext.take 16) (ciphertext.drop 16))
  else none

/-! ## Settlement -/

/-- `CreateTransactionRequest`: nine arguments.  The composite literal lists
nine values for the eight declared fields of `ItemTransaction`, and the code
reads two fields the declaration lacks, `ItemID` and `HammerPrice`; nothing
in the source fixes which argument either of them takes, so both are
parameters on the arguments (`Settlement`), and the declared fields are read
in order from the first eight values. -/
def CreateTransactionRequest (args : List String) : Res ItemTransaction :=
  match args with
  | [a0, a1, a2, a3, a4, a5, a6, a7, _] => .ok ⟨a0, a1, a2, a3, a4, a5, a6, a7⟩
  | _ => .err "CreateTransactionRequest() : Incorrect number of arguments. Expecting 9 "

/-- What the settlement path takes from outside the source: the fields
`ItemID` and `HammerPrice` that `PostTransaction` reads from the transaction
record built from the arguments; the block encryption of `crypto/aes`; what
the random source yields, the initialization vector of `Encrypt` and the key
of `GenAESKey`; the coding of a `[]byte` field as the text it is inside a
JSON record, in both directions; and the helper `PostItemLog`.  The key is
carried in its text form. -/
structure Settlement where
  TranItemID : List String → String
  HammerPrice : List String → String
  aes : List Nat → List Nat → List Nat
  iv : List Nat
  bytes : String → List Nat
  text : List Nat → String
  GenAESKey : String
  PostItemLog : Ledger → JObj → String → String → Res Blob × Ledger

/-- Assignment to a field of a record held as its JSON object. -/
def setField (o : JObj) (k : String) (v : String) : JObj :=
  (k, .str v) :: o.filter (fun kv => kv.1 ≠ k)

/-- Read of a field of a record held as its JSON object; a field that is
absent or no string reads as the zero value. -/
def getField (o : JObj) (k : String) : String :=
  (assertStr o k).getD ""

/-- Modelled from the spec: `ValidateItemSubmission` is called by
`PostTransaction` and is absent from the source; the spec has settlement
validate that the contract exists.  This is the lookup on the Contract table
in the shape of its sibling `ValidateMember`. -/
def ValidateItemSubmission (L : Ledger) (id : String) : Res Blob :=
  match QueryLedger L "ContractTable" [id, "CREATECONTR"] with
  | .err _ => .err ("\x7b\"Error\":\"Failed to get Object Data for " ++ id ++ "\"\x7d")
  | .abort => .abort
  | .ok b => .ok b

/-- `UpdateItemObject`: decode the record, decrypt the image under the stored
key and encrypt it under a new key with `Decrypt` and `Encrypt` (`.abort` is
their panic), set `ItemBasePrice` and `CurrentOwnerID`, and replace the rows
in `ItemTable` and `ItemCatTable`.  The record, with the fields the
declaration of `ContractObject` lacks, is held as its JSON object. -/
def UpdateItemObject (S : Settlement) (L : Ledger) (ar : Blob) (hammerPrice buyer : String) :
    Res String × Ledger :=
  match JSONtoAR ar with
  | none => (.err "json: cannot unmarshal", L)
  | some _ =>
    match Decrypt S.aes (S.bytes (getField ar.obj "AES_Key"))
        (S.bytes (getField ar.obj "ItemImage")) with
    | none => (.abort, L)
    | some image =>
      match Encrypt S.aes (S.bytes S.GenAESKey) S.iv image with
      | none => (.abort, L)
      | some enc =>
        match ReplaceLedgerEntry L "ItemTable"
            [getField ar.obj "ItemID", buyer]
            (.json (setField (setField (setField (setField ar.obj "AES_Key" S.GenAESKey)
              "ItemImage" (S.text enc)) "ItemBasePrice" hammerPrice) "CurrentOwnerID" buyer))
          with
        | (.err e, L1) => (.err e, L1)
        | (.abort, L1) => (.abort, L1)
        | (.ok _, L1) =>
          match ReplaceLedgerEntry L1 "ItemCatTable"
              ["2016", getField ar.obj "ItemSubject", getField ar.obj "ItemID"]
              (.json (setField (setField (setField (setField ar.obj "AES_Key" S.GenAESKey)
                "ItemImage" (S.text enc)) "ItemBasePrice" hammerPrice) "CurrentOwnerID" buyer))
            with
          | (.err e, L2) => (.err e, L2)
          | (.abort, L2) => (.abort, L2)
          | (.ok _, L2) => (.ok S.GenAESKey, L2)

/-- The key list `PostTransaction` passes to `UpdateLedger` for the
Transaction row: `args[0]` and `args[3]`; `none` is the index panic. -/
def transKeys (args : List String) : Option (List String) :=
  match args[0]?, args[3]? with
  | some a0, some a3 => some [a0, a3]
  | _, _ => none

/-- The bytes `json.Marshal` gives for a key in text form. -/
def marshalKey (k : String) : Blob :=
  .raw (("\"" ++ k ++ "\"").toList.map Char.toNat)

/-- `PostTransaction`. -/
def PostTransaction (S : Settlement) (L : Ledger) (function : String) (args : List String) :
    Res Blob × Ledger :=
  if function ≠ "PostTransaction" then
    (.err "PostTransaction(): Invalid function name. Expecting \"PostTransaction\"", L)
  else
    match CreateTransactionRequest args with
    | .err e => (.err e, L)
    | .abort => (.abort, L)
    | .ok ar =>
      match ValidateMember L ar.UserId with
      | .err e => (.err e, L)
      | .abort => (.abort, L)
      | .ok _ =>
        match ValidateItemSubmission L (S.TranItemID args) with
        | .err e => (.err e, L)
        | .abort => (.abort, L)
        | .ok lastUpdated =>
          match UpdateItemObject S L lastUpdated (S.HammerPrice args) ar.UserId with
          | (.err e, L1) => (.err e, L1)
          | (.abort, L1) => (.abort, L1)
          | (.ok newKey, L1) =>
            match JSONtoAR lastUpdated with
            | none => (.err "json: cannot unmarshal", L1)
            | some _ =>
              match S.PostItemLog L1
                  (setField (setField lastUpdated.obj "ItemBasePrice" (S.HammerPrice args))
                    "CurrentOwnerID" ar.UserId) "NA" "DEFAULT" with
              | (.err e, L2) => (.err e, L2)
              | (.abort, L2) => (.abort, L2)
              | (.ok _, L2) =>
                match transKeys args with
                | none => (.abort, L2)
                | some keys =>
                  match UpdateLedger L2 "TransTable" keys (TrantoJSON ar) with
                  | (.err e, L3) => (.err e, L3)
                  | (.abort, L3) => (.abort, L3)
                  | (.ok _, L3) => (.ok (marshalKey newKey), L3)

/-! ## Posting a contract -/

/-- A contract record as `CreateContract` builds it: the declared fields of
`ContractObject` and the field `AES_Key`, which the declaration lacks and the
code reads and writes. -/
structure ContractRecord extends ContractObject where
  AES_Key : String
  deriving DecidableEq, Repr

/-- `CreateContract`: eleven arguments, the first an integer.  The composite
literal lists thirteen values: the key drawn by `GenAESKey`, a `[]byte` that
no declared field can take, is the `AES_Key` of the record, and the twelve
strings fill the twelve declared fields in the order of declaration.  The
error of `GenAESKey` is dropped by the source. -/
def CreateContract (AES_key : String) (args : List String) : Res ContractRecord :=
  match args with
  | [a0, a1, a2, a3, a4, a5, a6, a7, a8, a9, a10] =>
    match Atoi a0 with
    | none => .err "CreateContract(): contract ID should be an integer create failed!"
    | some _ =>
      .ok { AES_Key := AES_key, ContractId := a0, Amount := a1, Duration := a2,
            BusinessRule := a3, Type' := a4, RequirementDescription := a5,
            Description := a6, Terms := a7, CreationDate := a8, UserID := a9,
            Status := "OPEN", RecType := a10 }
  | _ => .err "CreateContract(): Incorrect number of arguments. Expecting 11 "

/-- `ARtoJSON` on a record with its key: the key and the declared fields. -/
def recordJSON (r : ContractRecord) : Blob :=
  .json (("AES_Key", .str r.AES_Key) :: (ARtoJSON r.toContractObject).obj)

/-- `PostRequest`: build the record, check the owner, insert the Contract
row under `args[0]`, write the log entry, insert the category row under
`2016`, `args[4]`, `args[0]`, and return the encoded contract id.  The owner
check is written on the type name, `ContractObject.UserID`; it is read as the
field of the record just built, which the lines around it print. -/
def PostRequest (S : Settlement) (L : Ledger) (args : List String) : Res Blob × Ledger :=
  match CreateContract S.GenAESKey args with
  | .err e => (.err e, L)
  | .abort => (.abort, L)
  | .ok contractObject =>
    match ValidateMember L contractObject.UserID with
    | .err e => (.err e, L)
    | .abort => (.abort, L)
    | .ok _ =>
      match args[0]? with
      | none => (.abort, L)
      | some a0 =>
        match UpdateLedger L "ContractTable" [a0] (recordJSON contractObject) with
        | (.err e, L1) => (.err e, L1)
        | (.abort, L1) => (.abort, L1)
        | (.ok _, L1) =>
          match S.PostItemLog L1 (recordJSON contractObject).obj "INITIAL" "DEFAULT" with
          | (.err e, L2) => (.err e, L2)
          | (.abort, L2) => (.abort, L2)
          | (.ok _, L2) =>
            match args[4]? with
            | none => (.abort, L2)
            | some a4 =>
              match UpdateLedger L2 "ContractCatTable" ["2016", a4, a0]
                  (recordJSON contractObject) with
              | (.err e, L3) => (.err e, L3)
              | (.abort, L3) => (.abort, L3)
              | (.ok _, L3) => (.ok (marshalKey contractObject.ContractId), L3)

/-- `GetContract`: the Contract row under the arguments, with `ItemImage`
emptied.  The record is held as its JSON object. -/
def GetContract (L : Ledger) (args : List String) : Res Blob :=
  match QueryLedger L "ContractTable" args with
  | .err _ =>
    match args with
    | [] => .abort
    | a0 :: _ => .err ("\x7b\"Error\":\"Failed to get  Object Data for " ++ a0 ++ "\"\x7d")
  | .abort => .abort
  | .ok Avalbytes => .ok (.json (setField Avalbytes.obj "ItemImage" ""))

/-- `GetUser`: the User row under the arguments. -/
def GetUser (L : Ledger) (args : List String) : Res Blob :=
  match QueryLedger L "UserTable" args with
  | .err _ =>
    match args with
    | [] => .abort
    | a0 :: _ => .err ("\x7b\"Error\":\"Failed to get  Object Data for " ++ a0 ++ "\"\x7d")
  | .abort => .abort
  | .ok Avalbytes => .ok Avalbytes

/-! ## Routing -/

/-- `ChkReqType`: some argument is one of the `recType` tokens. -/
def ChkReqType : List String → Bool
  | [] => false
  | rt :: rest => if recType.any (fun val => decide (val = rt)) then true else ChkReqType rest

/-- A write handler: ledger, function name and arguments to payload and new
ledger. -/
abbrev Handler := Ledger → String → List String → Res Blob × Ledger

/-- A read handler. -/
abbrev QueryHandler := Ledger → String → List String → Res Blob

/-- What the handlers need from outside the source: the readers of the
undeclared fields, the time parser and the current time, the settlement
parts, the handlers the dispatch tables name but the source does not define,
and the host's `getState`. -/
structure Env where
  U : Undeclared
  tp : TimeParse
  now : String
  S : Settlement
  SelectBidder : Handler
  CloseContract : Handler
  GetUserContract : QueryHandler
  GetBidders : QueryHandler
  ViewContracts : QueryHandler
  GetUserBidds : QueryHandler
  GetState : String → Res (Option Blob)

/-- `GetVersion`: the state stored under the first argument. -/
def GetVersion (E : Env) (args : List String) : Res Blob :=
  match args with
  | [] => .err "GetVersion() : Requires 1 argument 'version'"
  | a0 :: _ =>
    match E.GetState a0 with
    | .err _ => .err "\x7b\"Error\":\"Failed to get state for version\"\x7d"
    | .abort => .abort
    | .ok none => .err "\x7b\"Error\":\" service application version is invalid\"\x7d"
    | .ok (some version) => .ok version

/-- The literal `InvokeFunc` of `InvokeFunction`. -/
def InvokeFunc (E : Env) : List (String × Handler) :=
  [("PostRequest", fun L _ args => PostRequest E.S L args),
   ("SelectBidder", E.SelectBidder),
   ("PostTransaction", fun L function args => PostTransaction E.S L function args),
   ("PostBid", fun L _ args => PostBid E.U E.tp E.now L args),
   ("CloseConract", E.CloseContract)]

/-- `InvokeFunction`: the map entry for the name, nil (`none`) for a name the
map does not have. -/
def InvokeFunction (E : Env) (fname : String) : Option Handler :=
  (InvokeFunc E).lookup fname

/-- The literal `QueryFunc` of `QueryFunction`. -/
def QueryFunc (E : Env) : List (String × QueryHandler) :=
  [("GetUser", fun L _ args => GetUser L args),
   ("GetUserContract", E.GetUserContract),
   ("GetBidders", E.GetBidders),
   ("ViewContracts", E.ViewContracts),
   ("GetUser", fun L _ args => GetUser L args),
   ("GetUserBidds", E.GetUserBidds),
   ("GetContract", fun L _ args => GetContract L args),
   ("GetVersion", fun _ _ args => GetVersion E args)]

/-- `QueryFunction`: the map entry for the name, nil (`none`) for a name the
map does not have. -/
def QueryFunction (E : Env) (fname : String) : Option QueryHandler :=
  (QueryFunc E).lookup fname

/-- `Invoke`: with a record-type token among the arguments the handler of
the function name is called, and a name without handler leaves `buff` and
`err` nil; without a token the error names `args[0]`. -/
def Invoke (E : Env) (L : Ledger) (function : String) (args : List String) :
    Res Blob × Ledger :=
  if ChkReqType args = true then
    match InvokeFunction E function with
    | some InvokeRequest => InvokeRequest L function args
    | none => (.ok (.raw []), L)
  else
    match args with
    | [] => (.abort, L)
    | a0 :: _ => (.err ("Invoke() : Invalid recType : " ++ a0), L)

/-- `Query`: `args[0]` is printed first; then the handler of the function
name is called, and any error of it becomes the not-found error. -/
def Query (E : Env) (L : Ledger) (function : String) (args : List String) : Res Blob :=
  match args with
  | [] => .abort
  | a0 :: _ =>
    if args.length < 1 then .err "Query() : Expecting Transation type and Key value for query"
    else
      match QueryFunction E function with
      | none => .err ("Query() : Invalid function call : " ++ function)
      | some QueryRequest =>
        match QueryRequest L function args with
        | .err _ => .err ("Query() : Object not found : " ++ a0)
        | .abort => .abort
        | .ok buff => .ok buff

/-! ## Status updates and list queries -/

/-- `UpdateContractStatus`: encode the record and replace the Contract row
under the keys `AuctionID`, `ItemID` of the record.  The record, of a type
the source does not declare, is held as its JSON object; the parameter
`tableName` is not used by the source. -/
def UpdateContractStatus (L : Ledger) (tableName : String) (ar : JObj) : Res Blob × Ledger :=
  let _unused := tableName
  match ReplaceLedgerEntry L "ContractTable" [getField ar "AuctionID", getField ar "ItemID"]
      (.json ar) with
  | (.err e, L1) => (.err e, L1)
  | (.abort, L1) => (.abort, L1)
  | (.ok _, L1) => (.ok (.json ar), L1)

/-- The message is a JSON object with the single name `Error`: it starts
with the opening brace and the quoted name and ends with the closing
brace. -/
def hasErrorForm (msg : String) : Bool :=
  ("\x7b\"Error\":".toList).isPrefixOf msg.toList && msg.toList.getLast? == some (Char.ofNat 125)

/-! ## Initialisation -/

/-- Modelled from the spec: the host's `deleteTable`, absent from the source.
The table definition and its rows are removed. -/
def deleteTable (L : Ledger) (t : String) : Ledger :=
  { defs := L.defs.filter (fun d => d.1 ≠ t), rows := L.rows.filter (fun r => r.table ≠ t) }

/-- `InitLedger`: create the table with `GetNumberOfKeys tableName` key
columns and one payload column; a table without keys is refused. -/
def InitLedger (L : Ledger) (tableName : String) : Res Unit × Ledger :=
  if GetNumberOfKeys tableName < 1 then
    (.err ("Auction_Application: Failed creating Table " ++ tableName), L)
  else (.ok (), createTable L tableName (GetNumberOfKeys tableName))

/-- The loop of `Init` over the table names. -/
def InitLoop : List String → Ledger → Res Unit × Ledger
  | [], L => (.ok (), L)
  | val :: rest, L =>
    match InitLedger (deleteTable L val) val with
    | (.ok _, L1) => InitLoop rest L1
    | (.err _, L1) => (.err ("Init(): InitLedger of " ++ val ++ "  Failed "), L1)
    | (.abort, L1) => (.abort, L1)

/-- `Init`: delete and re-create every table of `aucTables`. -/
def Init (L : Ledger) : Res Unit × Ledger := InitLoop aucTables L

/-! ## Worked example data -/

/-- A reader of stamps written exactly as `YYYY-MM-DD HH:MM:SS`, used as the
time parser of the worked examples; it orders such stamps as their instants
are ordered. -/
def stampParse : TimeParse := fun s =>
  match s.toList with
  | [y1, y2, y3, y4, '-', m1, m2, '-', d1, d2, ' ', h1, h2, ':', n1, n2, ':', s1, s2] =>
    (parseDigits [y1, y2, y3, y4, m1, m2, d1, d2, h1, h2, n1, n2, s1, s2] 0).map Int.ofNat
  | _ => none

/-- Readers of the undeclared fields for the worked examples: each by the
name of the field in the stored object. -/
def byName : Undeclared where
  CloseDate := fun o => (fieldStr o "CloseDate").getD ""
  ItemID := fun o => (fieldStr o "ItemID").getD ""
  ReservePrice := fun o => (fieldStr o "ReservePrice").getD ""

/-- The ledger right after `Init`: every table of `aucTables`, no rows. -/
def freshLedger : Ledger :=
  { defs := aucTables.map (fun t => (t, GetNumberOfKeys t)), rows := [] }

/-- A user row for the worked examples. -/
def demoUser (id : String) : Row :=
  ⟨"UserTable", [id], .json [("UserID", .str id), ("RecType", .str "USER")]⟩

/-- A contract row for the worked examples, with the given status; it is
for the item 1000, closes at the start of 2030 and has reserve price 1000. -/
def demoContract (id status : String) : Row :=
  ⟨"ContractTable", [id], .json [("ContractId", .str id), ("Amount", .str "1000"),
    ("UserID", .str "100"), ("Status", .str status), ("RecType", .str "CREATECONTR"),
    ("CloseDate", .str "2030-01-01 00:00:00"), ("ReservePrice", .str "1000"),
    ("ItemID", .str "1000")]⟩

/-- Example ledger: users 100, 300 and 400, and the open contract 1111. -/
def demoLedger : Ledger :=
  { freshLedger with
    rows := [demoUser "100", demoUser "300", demoUser "400", demoContract "1111" "OPEN"] }

/-- Example bid on contract 1111 with bid number 1, for the item 1000, by the
user 300 at price 1200: the first call the source documents for `PostBid`. -/
def demoBidArgs : List String :=
  ["1111", "BID", "1", "1000", "300", "1200"]

/-- The record `CreateBidObject` builds from `demoBidArgs` at the time
`2016-06-28 18:40:57`. -/
def demoBid : Bid := ⟨"1111", "BID", "1", "1000", "300", "1200", "2016-06-28 18:40:57"⟩

/-- The example ledger after the example bid has been stored. -/
def demoLedger1 : Ledger :=
  { demoLedger with rows := demoLedger.rows ++ [⟨"BidTable", ["1111"], BidtoJSON demoBid⟩] }

/-- Example bid on contract 1111 with bid number 2, by the registered user
400 at price 3000: the second call the source documents for `PostBid`. -/
def demoBidArgs2 : List String :=
  ["1111", "BID", "2", "1000", "400", "3000"]

/-- Example ledger whose contract 2222 is closed. -/
def closedLedger : Ledger :=
  { freshLedger with
    rows := [demoUser "300", demoContract "2222" "CLOSED"] }

/-- A stand-in block encryption for the worked examples. -/
def demoAes (key block : List Nat) : List Nat :=
  (List.range 16).map (fun i => (key.getD i 0 + block.getD i 0 + i) % 256)

/-- Settlement parameters for the worked examples: the item is the first
argument and the hammer price the seventh; the block encryption is `demoAes`,
the vector drawn is sixteen bytes 48 and the key drawn has thirty-two
characters; a `[]byte` field is the text of its character codes; the log
helper writes nothing. -/
def demoSettlement : Settlement where
  TranItemID := fun args => args[0]?.getD ""
  HammerPrice := fun args => args[6]?.getD ""
  aes := demoAes
  iv := List.replicate 16 48
  bytes := fun t => t.toList.map Char.toNat
  text := fun b => String.mk (b.map Char.ofNat)
  GenAESKey := "fedcba9876543210fedcba9876543210"
  PostItemLog := fun L _ _ _ => (.ok (.raw []), L)

/-- Environment for the worked examples; each handler the source does not
define answers with an error that names it. -/
def demoEnv : Env where
  U := byName
  tp := stampParse
  now := "2016-06-28 18:40:57"
  S := demoSettlement
  SelectBidder := fun L _ _ => (.err "SelectBidder called", L)
  CloseContract := fun L _ _ => (.err "CloseContract called", L)
  GetUserContract := fun _ _ _ => .err "GetUserContract called"
  GetBidders := fun _ _ _ => .err "GetBidders called"
  ViewContracts := fun _ _ _ => .err "ViewContracts called"
  GetUserBidds := fun _ _ _ => .err "GetUserBidds called"
  GetState := fun _ => .ok none

/-- Example posting of contract 1000 by the registered user 100, with the
record type `CREATECONTR` as last argument. -/
def postArgs : List String :=
  ["1000", "500", "30", "rule", "Landscape", "requirement", "description", "terms",
   "2016-06-01 10:00:00", "100", "CREATECONTR"]

/-- Example posting of contract 1000 whose record-type token `CREATECONTR`
stands among the arguments but not last. -/
def postArgsTokenInside : List String :=
  ["1000", "500", "30", "rule", "Landscape", "requirement", "description", "CREATECONTR",
   "2016-06-01 10:00:00", "100", "CONTRACT"]

/-- Example posting of contract 1000 by user 999, who is not registered. -/
def postArgsUnknownOwner : List String :=
  ["1000", "500", "30", "rule", "Landscape", "requirement", "description", "terms",
   "2016-06-01 10:00:00", "999", "CREATECONTR"]

/-- The user row of 100 with a name, for the replace example. -/
def namedUser : Blob :=
  .json [("UserID", .str "100"), ("RecType", .str "USER"), ("Name", .str "Ada")]

/-- A record for contract 2222 with status OPEN, as a caller of
`UpdateContractStatus` may hand it over. -/
def reopenRecord : JObj :=
  [("AuctionID", .str "2222"), ("ItemID", .str "2222"), ("ContractId", .str "2222"),
   ("Amount", .str "1000"), ("UserID", .str "100"), ("Status", .str "OPEN"),
   ("RecType", .str "CREATECONTR")]

/-- Example posting of contract 1001 by the registered user 100 in the
category `Landscape` of the example posting of contract 1000. -/
def postArgsSameCategory : List String :=
  ["1001", "700", "45", "rule", "Landscape", "requirement", "description", "terms",
   "2016-06-02 10:00:00", "100", "CREATECONTR"]

/-! ## Basic facts about the ledger wrappers -/

theorem insertRow_ok_true {L L1 : Ledger} {t : String} {keys : List String} {p : Blob}
    (h : insertRow L t keys p = (.ok true, L1)) :
    L.defs.lookup t = some keys.length ∧ getRow L t keys = none ∧
      L1 = { L with rows := L.rows ++ [⟨t, keys, p⟩] } := by
  unfold insertRow at h
  split at h
  · simp at h
  · rename_i n hn
    split at h
    · simp at h
    · rename_i hlen
      split at h
      · simp at h
      · rename_i hg
        simp only [Prod.mk.injEq, true_and] at h
        simp only [ne_eq, not_not] at hlen
        exact ⟨by rw [hn, hlen], hg, h.symm⟩

theorem insertRow_snd_of_ne (L : Ledger) (t : String) (keys : List String) (p : Blob)
    (h : (insertRow L t keys p).1 ≠ .ok true) : (insertRow L t keys p).2 = L := by
  unfold insertRow at h ⊢
  cases hd : L.defs.lookup t with
  | none => rfl
  | some n =>
    simp only [hd] at h ⊢
    by_cases hl : keys.length ≠ n
    · simp [hl]
    · cases hg : getRow L t keys with
      | some r => simp [hl]
      | none => simp [hl, hg] at h

theorem UpdateLedger_ok_inv {L L1 : Ledger} {t : String} {keys : List String} {p : Blob}
    {u : Unit} (h : UpdateLedger L t keys p = (.ok u, L1)) :
    GetNumberOfKeys t ≤ keys.length ∧
      L.defs.lookup t = some (GetNumberOfKeys t) ∧
      getRow L t (keys.take (GetNumberOfKeys t)) = none ∧
      L1 = { L with rows := L.rows ++ [⟨t, keys.take (GetNumberOfKeys t), p⟩] } := by
  unfold UpdateLedger keyColumns at h
  split at h
  · simp at h
  · rename_i cols hc
    split at hc
    · rename_i hle
      simp only [Option.some.injEq] at hc
      subst hc
      split at h
      · simp at h
      · simp at h
      · split at h <;> simp at h
      · rename_i L2 hi
        simp only [Prod.mk.injEq, true_and] at h
        subst h
        obtain ⟨h1, h2, h3⟩ := insertRow_ok_true hi
        refine ⟨hle, ?_, h2, h3⟩
        rw [h1, List.length_take, Nat.min_eq_left hle]
    · simp at hc

theorem UpdateLedger_snd_of_not_ok (L : Ledger) (t : String) (keys : List String) (p : Blob)
    (h : (UpdateLedger L t keys p).1.isOk = false) : (UpdateLedger L t keys p).2 = L := by
  unfold UpdateLedger at h ⊢
  cases hc : keyColumns (GetNumberOfKeys t) keys with
  | none => rfl
  | some cols =>
    simp only [hc] at h ⊢
    have hs := insertRow_snd_of_ne L t cols p
    rcases hi : insertRow L t cols p with ⟨r, L2⟩
    rw [hi] at hs
    simp only at hs
    cases r with
    | err e => simpa using hs
    | abort => simpa using hs
    | ok b =>
      cases b with
      | true => simp [hi, Res.isOk] at h
      | false =>
        have := hs (by simp)
        cases keys <;> simpa using this

theorem PostBid_snd_of_not_ok (U : Undeclared) (tp : TimeParse) (now : String) (L : Ledger)
    (args : List String) (h : (PostBid U tp now L args).1.isOk = false) :
    (PostBid U tp now L args).2 = L := by
  unfold PostBid at h ⊢
  repeat' split
  all_goals first
    | rfl
    | (rename_i hu
       have hs := UpdateLedger_snd_of_not_ok L "BidTable" _ _ (by rw [hu]; rfl)
       rw [hu] at hs; exact hs)
    | (rename_i hu
       simp_all [Res.isOk])

theorem CreateBidObject_ok_inv {args : List String} {now : String} {bid : Bid}
    (h : CreateBidObject args now = .ok bid) :
    ∃ a0 a1 a2 a3 a4 a5, args = [a0, a1, a2, a3, a4, a5] ∧
      bid = ⟨a0, a1, a2, a3, a4, a5, now⟩ := by
  unfold CreateBidObject at h
  split at h
  · rename_i a0 a1 a2 a3 a4 a5
    split at h
    · simp at h
    · split at h
      · simp at h
      · simp only [Res.ok.injEq] at h
        exact ⟨a0, a1, a2, a3, a4, a5, rfl, h.symm⟩
  · simp at h

theorem CreateBidObject_time (a0 a1 a2 a3 a4 a5 now now2 : String)
    (h : CreateBidObject [a0, a1, a2, a3, a4, a5] now = .ok ⟨a0, a1, a2, a3, a4, a5, now⟩) :
    CreateBidObject [a0, a1, a2, a3, a4, a5] now2 = .ok ⟨a0, a1, a2, a3, a4, a5, now2⟩ := by
  unfold CreateBidObject at h ⊢
  cases h0 : Atoi a0 with
  | none => simp [h0] at h
  | some v0 =>
    cases h2 : Atoi a2 with
    | none => simp [h0, h2] at h
    | some v2 => simp only [h0, h2]

theorem PostBid_ok_inv {U : Undeclared} {tp : TimeParse} {now : String} {L L1 : Ledger}
    {args : List String} {b : Blob} (h : PostBid U tp now L args = (.ok b, L1)) :
    ∃ a0 a1 a2 a3 a4 a5 ub RBytes aucR,
      args = [a0, a1, a2, a3, a4, a5] ∧
      CreateBidObject args now = .ok ⟨a0, a1, a2, a3, a4, a5, now⟩ ∧
      ValidateMember L a4 = .ok ub ∧
      GetAuctionRequest L [a0] = .ok RBytes ∧
      JSONtoAucReq RBytes = some aucR ∧
      aucR.Status = "OPEN" ∧
      tCompare tp now (U.CloseDate RBytes.obj) = true ∧
      U.ItemID RBytes.obj = a3 ∧
      priceCheck a5 (U.ReservePrice RBytes.obj) = .ok () ∧
      b = BidtoJSON ⟨a0, a1, a2, a3, a4, a5, now⟩ ∧
      UpdateLedger L "BidTable" [a0, a2] b = (.ok (), L1) := by
  unfold PostBid at h
  cases hc : CreateBidObject args now with
  | err e => simp [hc] at h
  | abort => simp [hc] at h
  | ok bid =>
    obtain ⟨a0, a1, a2, a3, a4, a5, rfl, rfl⟩ := CreateBidObject_ok_inv hc
    simp only [hc, List.getElem?_cons_succ, List.getElem?_cons_zero] at h
    cases hv : ValidateMember L a4 with
    | err e => simp [hv] at h
    | abort => simp [hv] at h
    | ok ub =>
      simp only [hv] at h
      cases hg : GetAuctionRequest L [a0] with
      | err e => simp [hg] at h
      | abort => simp [hg] at h
      | ok RBytes =>
        simp only [hg] at h
        cases hj : JSONtoAucReq RBytes with
        | none => simp [hj] at h
        | some aucR =>
          simp only [hj] at h
          by_cases hs : aucR.Status = "OPEN"
          · by_cases ht : tCompare tp now (U.CloseDate RBytes.obj) = true
            · by_cases hi : U.ItemID RBytes.obj = a3
              · cases hp : priceCheck a5 (U.ReservePrice RBytes.obj) with
                | err e => simp [hs, ht, hi, hp] at h
                | abort => simp [hs, ht, hi, hp] at h
                | ok u =>
                  simp only [hs, ht, hi, hp, ne_eq, not_true_eq_false, if_false,
                    Bool.true_eq_false] at h
                  rcases hu : UpdateLedger L "BidTable" [a0, a2]
                    (BidtoJSON ⟨a0, a1, a2, a3, a4, a5, now⟩) with ⟨r, L2⟩
                  rw [hu] at h
                  cases r with
                  | err e => simp at h
                  | abort => simp at h
                  | ok u2 =>
                    simp only [Prod.mk.injEq, Res.ok.injEq] at h
                    obtain ⟨hb, hL⟩ := h
                    subst hb hL
                    exact ⟨a0, a1, a2, a3, a4, a5, ub, RBytes, aucR, rfl, rfl, hv, hg, hj, hs,
                      ht, hi, hp, rfl, hu⟩
              · simp [hs, ht, hi] at h
            · simp [hs, ht] at h
          · simp [hs] at h

theorem getRow_append_other (L : Ledger) (r : Row) (t : String) (keys : List String)
    (h : ¬ (r.table = t ∧ r.keys = keys)) :
    getRow { L with rows := L.rows ++ [r] } t keys = getRow L t keys := by
  unfold getRow
  simp only [List.find?_append]
  cases hf : List.find? (fun r => decide (r.table = t ∧ r.keys = keys)) L.rows with
  | some x => simp
  | none => simp [List.find?, h]

theorem getRow_append_self (L : Ledger) (t : String) (keys : List String) (p : Blob)
    (h : getRow L t keys = none) :
    getRow { L with rows := L.rows ++ [⟨t, keys, p⟩] } t keys = some ⟨t, keys, p⟩ := by
  unfold getRow at h ⊢
  simp only [List.find?_append, h]
  simp [List.find?]

theorem UpdateLedger_duplicate (L : Ledger) (t : String) (keys : List String) (p : Blob)
    (hT : L.defs.lookup t = some (GetNumberOfKeys t)) (h1 : 1 ≤ GetNumberOfKeys t)
    (hk : GetNumberOfKeys t ≤ keys.length) (r : Row)
    (hr : getRow L t (keys.take (GetNumberOfKeys t)) = some r) :
    ∃ msg, UpdateLedger L t keys p = (.err msg, L) := by
  unfold UpdateLedger keyColumns insertRow
  have hlen : (List.take (GetNumberOfKeys t) keys).length = GetNumberOfKeys t := by
    rw [List.length_take, Nat.min_eq_left hk]
  cases keys with
  | nil => simp at hk; omega
  | cons k0 ks =>
    simp only [hk, if_true, hT, hlen, ne_eq, not_true_eq_false, if_false, hr]
    exact ⟨_, rfl⟩

theorem UpdateLedger_fresh (L : Ledger) (t : String) (keys : List String) (p : Blob)
    (hT : L.defs.lookup t = some (GetNumberOfKeys t))
    (hk : GetNumberOfKeys t ≤ keys.length)
    (hr : getRow L t (keys.take (GetNumberOfKeys t)) = none) :
    UpdateLedger L t keys p =
      (.ok (), { L with rows := L.rows ++ [⟨t, keys.take (GetNumberOfKeys t), p⟩] }) := by
  unfold UpdateLedger keyColumns insertRow
  have hlen : (List.take (GetNumberOfKeys t) keys).length = GetNumberOfKeys t := by
    rw [List.length_take, Nat.min_eq_left hk]
  simp only [hk, if_true, hT, hlen, ne_eq, not_true_eq_false, if_false, hr]

theorem GetNumberOfKeys_BidTable : GetNumberOfKeys "BidTable" = 1 := by decide

theorem QueryLedger_append_other (L : Ledger) (r : Row) (t : String) (args : List String)
    (h : r.table ≠ t) :
    QueryLedger { L with rows := L.rows ++ [r] } t args = QueryLedger L t args := by
  unfold QueryLedger
  cases hc : keyColumns (GetNumberOfKeys t) args with
  | none => rfl
  | some cols =>
    simp only
    rw [getRow_append_other L r t cols (fun hh => h hh.1)]

theorem PostBid_second_not_ok (U : Undeclared) (tp : TimeParse) (now now2 : String)
    (L L1 : Ledger) (args args2 : List String) (b : Blob)
    (h : PostBid U tp now L args = (.ok b, L1))
    (h0 : args2[0]? = args[0]?) :
    (PostBid U tp now2 L1 args2).1.isOk = false := by
  obtain ⟨a0, a1, a2, a3, a4, a5, ub, RBytes, aucR, rfl, -, -, -, -, -, -, -, -, hb, hu⟩ :=
    PostBid_ok_inv h
  obtain ⟨-, -, hnone, hL1⟩ := UpdateLedger_ok_inv hu
  rw [GetNumberOfKeys_BidTable] at hnone hL1
  simp only [List.take_succ_cons, List.take_zero] at hnone hL1
  cases hr : (PostBid U tp now2 L1 args2).1 with
  | err e => rfl
  | abort => rfl
  | ok b2 =>
    exfalso
    have hp : PostBid U tp now2 L1 args2 = (.ok b2, (PostBid U tp now2 L1 args2).2) := by
      rw [← hr]
    obtain ⟨c0, c1, c2, c3, c4, c5, -, -, -, rfl, -, -, -, -, -, -, -, -, -, hu2⟩ :=
      PostBid_ok_inv hp
    obtain ⟨-, -, hnone2, -⟩ := UpdateLedger_ok_inv hu2
    rw [GetNumberOfKeys_BidTable] at hnone2
    simp only [List.take_succ_cons, List.take_zero] at hnone2
    simp only [List.getElem?_cons_zero, Option.some.injEq] at h0
    subst h0
    rw [hL1, getRow_append_self L "BidTable" [c0] b hnone] at hnone2
    simp at hnone2

theorem PostBid_repeat_err (U : Undeclared) (tp : TimeParse) (now now2 : String)
    (L L1 : Ledger) (args : List String) (b : Blob)
    (h : PostBid U tp now L args = (.ok b, L1)) :
    ∃ msg, PostBid U tp now2 L1 args = (.err msg, L1) := by
  obtain ⟨a0, a1, a2, a3, a4, a5, ub, RBytes, aucR, rfl, hc, hv, hg, hj, hs, -, hi, hp, -, hu⟩ :=
    PostBid_ok_inv h
  obtain ⟨-, hT, hnone, hL1⟩ := UpdateLedger_ok_inv hu
  have hc2 := CreateBidObject_time a0 a1 a2 a3 a4 a5 now now2 hc
  have hv2 : ValidateMember L1 a4 = .ok ub := by
    rw [← hv, hL1]; unfold ValidateMember
    rw [QueryLedger_append_other _ _ _ _ (show "BidTable" ≠ "UserTable" by decide)]
  have hg2 : GetAuctionRequest L1 [a0] = .ok RBytes := by
    rw [← hg, hL1]; unfold GetAuctionRequest
    rw [QueryLedger_append_other _ _ _ _ (show "BidTable" ≠ "ContractTable" by decide)]
  have hdup : ∃ msg, UpdateLedger L1 "BidTable" [a0, a2]
      (BidtoJSON ⟨a0, a1, a2, a3, a4, a5, now2⟩) = (.err msg, L1) := by
    apply UpdateLedger_duplicate L1 "BidTable" [a0, a2] _ _ (by decide)
      (by rw [GetNumberOfKeys_BidTable]; simp)
      ⟨"BidTable", [a0, a2].take (GetNumberOfKeys "BidTable"), b⟩
    · rw [hL1]; exact getRow_append_self L _ _ b hnone
    · rw [hL1]; exact hT
  obtain ⟨msg, hdup⟩ := hdup
  unfold PostBid
  simp only [hc2, List.getElem?_cons_succ, List.getElem?_cons_zero, hv2, hg2, hj, hs, hi, hp,
    ne_eq, not_true_eq_false, if_false]
  by_cases ht2 : tCompare tp now2 (U.CloseDate RBytes.obj) = true
  · simp only [ht2, Bool.true_eq_false, if_false, hdup]
    exact ⟨_, rfl⟩
  · simp only [Bool.not_eq_true] at ht2
    simp only [ht2, if_true]
    exact ⟨_, rfl⟩

/-! ## Inserts and duplicate keys -/

theorem aucTables_have_keys (t : String) (h : t ∈ aucTables) : 1 ≤ GetNumberOfKeys t := by
  simp only [aucTables, List.mem_cons, List.mem_singleton, List.not_mem_nil, or_false] at h
  rcases h with rfl | rfl | rfl | rfl | rfl | rfl | rfl | rfl | rfl <;> decide

theorem Init_empty : Init ⟨[], []⟩ = (.ok (), freshLedger) := by decide

/-- C1: for a table of the store, created as `Init` creates it, and a key list
that supplies its keys, `UpdateLedger` returns an error and leaves the ledger
as it was when a row is already stored under the key, and otherwise succeeds,
after which the row is read back with the payload; a second `PostBid` with
the contract id and bid number of an accepted bid is not accepted, changes
nothing, and is answered with an error when the arguments are repeated. -/
theorem UpdateLedger_insert_unique :
    (∀ (L : Ledger) (t : String) (keys : List String) (p : Blob),
      t ∈ aucTables → L.defs.lookup t = some (GetNumberOfKeys t) →
      GetNumberOfKeys t ≤ keys.length →
      ((∃ r, getRow L t (keys.take (GetNumberOfKeys t)) = some r) →
        ∃ msg, UpdateLedger L t keys p = (.err msg, L)) ∧
      (getRow L t (keys.take (GetNumberOfKeys t)) = none →
        ∃ L1, UpdateLedger L t keys p = (.ok (), L1) ∧
          getRow L1 t (keys.take (GetNumberOfKeys t))
            = some ⟨t, keys.take (GetNumberOfKeys t), p⟩ ∧
          (ProcessQueryResult p = .ok () → QueryLedger L1 t keys = .ok p))) ∧
    (∀ (U : Undeclared) (tp : TimeParse) (now now2 : String) (L L1 : Ledger)
      (args args2 : List String) (b : Blob),
      PostBid U tp now L args = (.ok b, L1) →
      args2[0]? = args[0]? → args2[2]? = args[2]? →
      (PostBid U tp now2 L1 args2).1.isOk = false ∧
      (PostBid U tp now2 L1 args2).2 = L1 ∧
      (∃ c, args[0]? = some c ∧ getRow L1 "BidTable" [c] = some ⟨"BidTable", [c], b⟩) ∧
      ∃ msg, PostBid U tp now2 L1 args = (.err msg, L1)) := by
  refine ⟨?_, ?_⟩
  · intro L t keys p ht hT hk
    have h1 := aucTables_have_keys t ht
    refine ⟨fun ⟨r, hr⟩ => UpdateLedger_duplicate L t keys p hT h1 hk r hr, fun hr => ?_⟩
    refine ⟨_, UpdateLedger_fresh L t keys p hT hk hr, getRow_append_self L _ _ p hr, ?_⟩
    intro hp
    unfold QueryLedger keyColumns
    simp only [hk, if_true, getRow_append_self L _ _ p hr, hp]
  · intro U tp now now2 L L1 args args2 b h h0 _
    have hno := PostBid_second_not_ok U tp now now2 L L1 args args2 b h h0
    refine ⟨hno, PostBid_snd_of_not_ok U tp now2 L1 args2 hno, ?_,
      PostBid_repeat_err U tp now now2 L L1 args b h⟩
    obtain ⟨a0, a1, a2, a3, a4, a5, ub, RBytes, aucR, rfl, -, -, -, -, -, -, -, -, -, hu⟩ :=
      PostBid_ok_inv h
    obtain ⟨-, -, hnone, hL1⟩ := UpdateLedger_ok_inv hu
    rw [GetNumberOfKeys_BidTable] at hnone hL1
    simp only [List.take_succ_cons, List.take_zero] at hnone hL1
    exact ⟨a0, rfl, by rw [hL1]; exact getRow_append_self L _ _ b hnone⟩

/-- Witness for C1 on the example ledger: a second user row for 100 is
refused, a row for 7 is stored and read back, and the example bid is accepted
once and refused when submitted again. -/
theorem UpdateLedger_insert_unique_witness :
    (∃ msg, UpdateLedger demoLedger "UserTable" ["100"] (demoUser "100").payload
      = (.err msg, demoLedger)) ∧
    (∃ L1, UpdateLedger demoLedger "UserTable" ["7"] (demoUser "7").payload = (.ok (), L1) ∧
      getRow L1 "UserTable" ["7"] = some (demoUser "7") ∧
      (ProcessQueryResult (demoUser "7").payload = .ok () →
        QueryLedger L1 "UserTable" ["7"] = .ok (demoUser "7").payload)) ∧
    PostBid byName stampParse "2016-06-28 18:40:57" demoLedger demoBidArgs
      = (.ok (BidtoJSON demoBid), demoLedger1) ∧
    (PostBid byName stampParse "2016-06-28 18:41:00" demoLedger1
      ["1111", "BID", "1", "1000", "400", "3000"]).1.isOk = false :=
  ⟨(UpdateLedger_insert_unique.1 demoLedger "UserTable" ["100"] (demoUser "100").payload
      (by decide) (by decide) (by decide)).1 ⟨demoUser "100", by decide⟩,
   (UpdateLedger_insert_unique.1 demoLedger "UserTable" ["7"] (demoUser "7").payload
      (by decide) (by decide) (by decide)).2 (by decide),
   by decide,
   (UpdateLedger_insert_unique.2 byName stampParse "2016-06-28 18:40:57" "2016-06-28 18:41:00"
      demoLedger demoLedger1 demoBidArgs
      ["1111", "BID", "1", "1000", "400", "3000"] (BidtoJSON demoBid)
      (by decide) (by decide) (by decide)).1⟩

/-! ## The key of a bid row -/

/-- C2 (code at the failing input): once the example bid with bid number 1 is
stored, the valid bid with bid number 2 on the same open contract is refused
as a duplicate of key 1111 and the ledger keeps the single bid row. -/
theorem PostBid_other_bid_number_refused :
    PostBid byName stampParse "2016-06-28 18:40:57" demoLedger demoBidArgs
      = (.ok (BidtoJSON demoBid), demoLedger1) ∧
    PostBid byName stampParse "2016-06-28 18:41:00" demoLedger1 demoBidArgs2
      = (.err ("UpdateLedger: InsertRow into BidTable Table failed. "
          ++ "Row with given key 1111 already exists"), demoLedger1) ∧
    GetNumberOfKeys "BidTable" = 1 ∧
    getRows demoLedger1 "BidTable" ["1111"] = [⟨"BidTable", ["1111"], BidtoJSON demoBid⟩] := by
  decide

/-! ## Validation order of `PostBid` -/

/-- C3: when the bid object is built, the bidder passes `ValidateMember` and
the contract is fetched and decoded with a status other than OPEN, `PostBid`
returns the not-OPEN error and the ledger is unchanged, whatever price and
times the bid and the contract carry. -/
theorem PostBid_not_open_rejected (U : Undeclared) (tp : TimeParse) (now : String)
    (L : Ledger) (a0 a1 a2 a3 a4 a5 : String) (bid : Bid) (ub RBytes : Blob)
    (aucR : ContractObject)
    (hc : CreateBidObject [a0, a1, a2, a3, a4, a5] now = .ok bid)
    (hv : ValidateMember L a4 = .ok ub)
    (hg : GetAuctionRequest L [a0] = .ok RBytes)
    (hj : JSONtoAucReq RBytes = some aucR)
    (hs : aucR.Status ≠ "OPEN") :
    PostBid U tp now L [a0, a1, a2, a3, a4, a5]
      = (.err ("PostBid(): Cannot accept Bid as Auction is not OPEN : " ++ a0), L) ∧
    getRows (PostBid U tp now L [a0, a1, a2, a3, a4, a5]).2 "BidTable" []
      = getRows L "BidTable" [] := by
  have h : PostBid U tp now L [a0, a1, a2, a3, a4, a5]
      = (.err ("PostBid(): Cannot accept Bid as Auction is not OPEN : " ++ a0), L) := by
    unfold PostBid
    simp only [hc, List.getElem?_cons_succ, List.getElem?_cons_zero, hv, hg, hj, hs, ne_eq,
      not_false_eq_true, if_true]
  exact ⟨h, by rw [h]⟩

/-- Witness for C3: a bid at price 1200 and before the close time on the
closed contract 2222 is refused. -/
theorem PostBid_not_open_rejected_witness :
    PostBid byName stampParse "2016-06-28 18:40:57" closedLedger
      ["2222", "BID", "1", "1000", "300", "1200"]
      = (.err "PostBid(): Cannot accept Bid as Auction is not OPEN : 2222", closedLedger) :=
  (PostBid_not_open_rejected byName stampParse "2016-06-28 18:40:57" closedLedger
    "2222" "BID" "1" "1000" "300" "1200"
    ⟨"2222", "BID", "1", "1000", "300", "1200", "2016-06-28 18:40:57"⟩
    (demoUser "300").payload (demoContract "2222" "CLOSED").payload
    ⟨"2222", "1000", "", "", "", "", "", "", "", "100", "CLOSED", "CREATECONTR"⟩
    (by decide) (by decide) (by decide) (by decide) (by decide)).1

/-- C4: for a bid that passes the bidder, contract, status, time and item
checks, `PostBid` returns a price error and leaves the ledger unchanged when
the bid price, the sixth argument, or the reserve price is no integer for
`Atoi` or the bid price is below the reserve; in every other case, a bid
price equal to the reserve included, the price check passes and the outcome
is that of the insert into the Bid table, a success when no row is stored
under the key; and a bid below the reserve is refused on a Bid table without
rows as well. -/
theorem PostBid_price_check (U : Undeclared) (tp : TimeParse) (now : String)
    (L : Ledger) (a0 a1 a2 a3 a4 a5 : String) (bid : Bid) (ub RBytes : Blob)
    (aucR : ContractObject)
    (hc : CreateBidObject [a0, a1, a2, a3, a4, a5] now = .ok bid)
    (hv : ValidateMember L a4 = .ok ub)
    (hg : GetAuctionRequest L [a0] = .ok RBytes)
    (hj : JSONtoAucReq RBytes = some aucR)
    (hs : aucR.Status = "OPEN")
    (ht : tCompare tp bid.BidTime (U.CloseDate RBytes.obj) = true)
    (hi : U.ItemID RBytes.obj = bid.ItemID) :
    bid.BidPrice = a5 ∧
    (Atoi a5 = none →
      PostBid U tp now L [a0, a1, a2, a3, a4, a5]
        = (.err "PostBid() : Bid price should be an integer", L)) ∧
    (∀ x, Atoi a5 = some x → Atoi (U.ReservePrice RBytes.obj) = none →
      PostBid U tp now L [a0, a1, a2, a3, a4, a5]
        = (.err "PostItem() : Reserve Price should be an integer", L)) ∧
    (∀ x y, Atoi a5 = some x → Atoi (U.ReservePrice RBytes.obj) = some y → x < y →
      PostBid U tp now L [a0, a1, a2, a3, a4, a5]
        = (.err "PostItem() : Bid Price must be greater than Reserve Price", L)) ∧
    (∀ x y, Atoi a5 = some x → Atoi (U.ReservePrice RBytes.obj) = some y → y ≤ x →
      (PostBid U tp now L [a0, a1, a2, a3, a4, a5]).1.isOk
        = (UpdateLedger L "BidTable" [a0, a2] (BidtoJSON bid)).1.isOk ∧
      (PostBid U tp now L [a0, a1, a2, a3, a4, a5]).2
        = (UpdateLedger L "BidTable" [a0, a2] (BidtoJSON bid)).2 ∧
      (L.defs.lookup "BidTable" = some 1 → getRow L "BidTable" [a0] = none →
        PostBid U tp now L [a0, a1, a2, a3, a4, a5]
          = (.ok (BidtoJSON bid),
              { L with rows := L.rows ++ [⟨"BidTable", [a0], BidtoJSON bid⟩] }))) := by
  obtain ⟨b0, b1, b2, b3, b4, b5, hargs, hbid⟩ := CreateBidObject_ok_inv hc
  simp only [List.cons.injEq, and_true] at hargs
  obtain ⟨rfl, rfl, rfl, rfl, rfl, rfl⟩ := hargs
  subst hbid
  simp only at ht hi
  have hstep : ∀ r : Res Unit, priceCheck a5 (U.ReservePrice RBytes.obj) = r →
      PostBid U tp now L [a0, a1, a2, a3, a4, a5] =
        (match r with
          | .err e => (.err e, L)
          | .abort => (.abort, L)
          | .ok _ =>
            match UpdateLedger L "BidTable" [a0, a2]
                (BidtoJSON ⟨a0, a1, a2, a3, a4, a5, now⟩) with
            | (.ok _, L1) => (.ok (BidtoJSON ⟨a0, a1, a2, a3, a4, a5, now⟩), L1)
            | (.err e, L1) => (.err e, L1)
            | (.abort, L1) => (.abort, L1)) := by
    intro r hr
    unfold PostBid
    simp only [hc, List.getElem?_cons_succ, List.getElem?_cons_zero, hv, hg, hj, hs, ht, hi,
      ne_eq, not_true_eq_false, if_false, Bool.true_eq_false, hr]
  refine ⟨rfl, ?_, ?_, ?_, ?_⟩
  · intro hb
    exact hstep (.err "PostBid() : Bid price should be an integer")
      (by unfold priceCheck; simp only [hb])
  · intro x hx hr
    exact hstep (.err "PostItem() : Reserve Price should be an integer")
      (by unfold priceCheck; simp only [hx, hr])
  · intro x y hx hy hlt
    exact hstep (.err "PostItem() : Bid Price must be greater than Reserve Price")
      (by unfold priceCheck; simp only [hx, hy, hlt, if_true])
  · intro x y hx hy hle
    have hp : priceCheck a5 (U.ReservePrice RBytes.obj) = .ok () := by
      unfold priceCheck
      simp only [hx, hy, not_lt.mpr hle, if_false]
    have hP := hstep _ hp
    simp only at hP
    refine ⟨?_, ?_, ?_⟩
    · rw [hP]
      rcases UpdateLedger L "BidTable" [a0, a2] (BidtoJSON ⟨a0, a1, a2, a3, a4, a5, now⟩)
        with ⟨r, L2⟩
      cases r <;> rfl
    · rw [hP]
      rcases UpdateLedger L "BidTable" [a0, a2] (BidtoJSON ⟨a0, a1, a2, a3, a4, a5, now⟩)
        with ⟨r, L2⟩
      cases r <;> rfl
    · intro hT hn
      have hf := UpdateLedger_fresh L "BidTable" [a0, a2]
        (BidtoJSON ⟨a0, a1, a2, a3, a4, a5, now⟩)
        (by rw [GetNumberOfKeys_BidTable]; exact hT)
        (by rw [GetNumberOfKeys_BidTable]; simp)
        (by rw [GetNumberOfKeys_BidTable]; exact hn)
      rw [GetNumberOfKeys_BidTable] at hf
      rw [hP, hf]
      rfl

/-- Witness for C4: on the example ledger, whose Bid table has no rows, the
documented bid at price 1200 against the reserve 1000 is stored, the bid at
the reserve 1000 is stored, and the bid at price 999 is refused. -/
theorem PostBid_price_check_witness :
    PostBid byName stampParse "2016-06-28 18:40:57" demoLedger demoBidArgs
      = (.ok (BidtoJSON demoBid), demoLedger1) ∧
    (PostBid byName stampParse "2016-06-28 18:40:57" demoLedger
      ["1111", "BID", "1", "1000", "300", "1000"]).1.isOk = true ∧
    PostBid byName stampParse "2016-06-28 18:40:57" demoLedger
      ["1111", "BID", "1", "1000", "300", "999"]
      = (.err "PostItem() : Bid Price must be greater than Reserve Price", demoLedger) ∧
    getRows demoLedger "BidTable" [] = [] :=
  ⟨((PostBid_price_check byName stampParse "2016-06-28 18:40:57" demoLedger
      "1111" "BID" "1" "1000" "300" "1200" demoBid
      (demoUser "300").payload (demoContract "1111" "OPEN").payload
      ⟨"1111", "1000", "", "", "", "", "", "", "", "100", "OPEN", "CREATECONTR"⟩
      (by decide) (by decide) (by decide) (by decide) (by decide) (by decide)
      (by decide)).2.2.2.2 1200 1000 (by decide) (by decide) (by decide)).2.2
      (by decide) (by decide),
   by decide,
   (PostBid_price_check byName stampParse "2016-06-28 18:40:57" demoLedger
      "1111" "BID" "1" "1000" "300" "999"
      ⟨"1111", "BID", "1", "1000", "300", "999", "2016-06-28 18:40:57"⟩
      (demoUser "300").payload (demoContract "1111" "OPEN").payload
      ⟨"1111", "1000", "", "", "", "", "", "", "", "100", "OPEN", "CREATECONTR"⟩
      (by decide) (by decide) (by decide) (by decide) (by decide) (by decide)
      (by decide)).2.2.2.1 999 1000 (by decide) (by decide) (by decide),
   by decide⟩

/-- C5: `tCompare` is true exactly when both strings parse and the first
instant is strictly before the second, so it is false on equal strings; the
time of a bid is the time at which `CreateBidObject` runs, whatever the
arguments; `PostBid` answers a bid whose time fails `tCompare` against the
close time of the fetched OPEN contract with the close-time error, leaving
the ledger unchanged, whatever the bid price; and every bid it accepts has a
time that `tCompare` puts before the close time. -/
theorem tCompare_strict_and_enforced :
    (∀ (tp : TimeParse) (t1 t2 : String),
      tCompare tp t1 t2 = true ↔ ∃ x y, tp t1 = some x ∧ tp t2 = some y ∧ x < y) ∧
    (∀ (tp : TimeParse) (t : String), tCompare tp t t = false) ∧
    (∀ (args : List String) (now : String) (bid : Bid),
      CreateBidObject args now = .ok bid → bid.BidTime = now) ∧
    (∀ (U : Undeclared) (tp : TimeParse) (now : String) (L : Ledger)
      (a0 a1 a2 a3 a4 a5 : String) (bid : Bid) (ub RBytes : Blob) (aucR : ContractObject),
      CreateBidObject [a0, a1, a2, a3, a4, a5] now = .ok bid →
      ValidateMember L a4 = .ok ub →
      GetAuctionRequest L [a0] = .ok RBytes →
      JSONtoAucReq RBytes = some aucR →
      aucR.Status = "OPEN" →
      tCompare tp bid.BidTime (U.CloseDate RBytes.obj) = false →
      PostBid U tp now L [a0, a1, a2, a3, a4, a5]
        = (.err ("PostBid() Failed : BidTime past the Auction Close Time "
            ++ bid.BidTime ++ ", " ++ U.CloseDate RBytes.obj), L)) ∧
    (∀ (U : Undeclared) (tp : TimeParse) (now : String) (L L1 : Ledger)
      (args : List String) (b : Blob),
      PostBid U tp now L args = (.ok b, L1) →
      ∃ bid RBytes, CreateBidObject args now = .ok bid ∧
        GetAuctionRequest L (args.take 1) = .ok RBytes ∧
        tCompare tp bid.BidTime (U.CloseDate RBytes.obj) = true) := by
  have hiff : ∀ (tp : TimeParse) (t1 t2 : String),
      tCompare tp t1 t2 = true ↔ ∃ x y, tp t1 = some x ∧ tp t2 = some y ∧ x < y := by
    intro tp t1 t2
    unfold tCompare
    cases h1 : tp t1 with
    | none => simp
    | some x =>
      cases h2 : tp t2 with
      | none => simp
      | some y => simp
  refine ⟨hiff, ?_, ?_, ?_, ?_⟩
  · intro tp t
    cases hb : tCompare tp t t with
    | false => rfl
    | true =>
      obtain ⟨x, y, hx, hy, hlt⟩ := (hiff tp t t).mp hb
      rw [hx] at hy
      cases hy
      exact absurd hlt (lt_irrefl x)
  · intro args now bid hc
    obtain ⟨a0, a1, a2, a3, a4, a5, -, rfl⟩ := CreateBidObject_ok_inv hc
    rfl
  · intro U tp now L a0 a1 a2 a3 a4 a5 bid ub RBytes aucR hc hv hg hj hs ht
    unfold PostBid
    simp only [hc, List.getElem?_cons_succ, List.getElem?_cons_zero, hv, hg, hj, hs, ht,
      ne_eq, not_true_eq_false, if_false, if_true]
  · intro U tp now L L1 args b h
    obtain ⟨a0, a1, a2, a3, a4, a5, ub, RBytes, aucR, rfl, hc, -, hg, -, -, ht, -, -, -, -⟩ :=
      PostBid_ok_inv h
    exact ⟨_, RBytes, hc, hg, ht⟩

/-- Witness for C5: with the example parser a stamp is not before itself; the
documented bid arriving at the close time of contract 1111 is refused, and so
is the same bid arriving a year after it. -/
theorem tCompare_strict_and_enforced_witness :
    tCompare stampParse "2030-01-01 00:00:00" "2030-01-01 00:00:00" = false ∧
    PostBid byName stampParse "2030-01-01 00:00:00" demoLedger demoBidArgs
      = (.err ("PostBid() Failed : BidTime past the Auction Close Time "
          ++ "2030-01-01 00:00:00" ++ ", " ++ "2030-01-01 00:00:00"), demoLedger) ∧
    PostBid byName stampParse "2031-01-01 00:00:00" demoLedger demoBidArgs
      = (.err ("PostBid() Failed : BidTime past the Auction Close Time "
          ++ "2031-01-01 00:00:00" ++ ", " ++ "2030-01-01 00:00:00"), demoLedger) :=
  ⟨tCompare_strict_and_enforced.2.1 stampParse "2030-01-01 00:00:00",
   tCompare_strict_and_enforced.2.2.2.1 byName stampParse "2030-01-01 00:00:00" demoLedger
    "1111" "BID" "1" "1000" "300" "1200"
    ⟨"1111", "BID", "1", "1000", "300", "1200", "2030-01-01 00:00:00"⟩
    (demoUser "300").payload (demoContract "1111" "OPEN").payload
    ⟨"1111", "1000", "", "", "", "", "", "", "", "100", "OPEN", "CREATECONTR"⟩
    (by decide) (by decide) (by decide) (by decide) (by decide) (by decide),
   tCompare_strict_and_enforced.2.2.2.1 byName stampParse "2031-01-01 00:00:00" demoLedger
    "1111" "BID" "1" "1000" "300" "1200"
    ⟨"1111", "BID", "1", "1000", "300", "1200", "2031-01-01 00:00:00"⟩
    (demoUser "300").payload (demoContract "1111" "OPEN").payload
    ⟨"1111", "1000", "", "", "", "", "", "", "", "100", "OPEN", "CREATECONTR"⟩
    (by decide) (by decide) (by decide) (by decide) (by decide) (by decide)⟩

/-! ## The bidder of a stored bid -/

theorem ValidateMember_ok_row {L : Ledger} {owner : String} {ub : Blob}
    (h : ValidateMember L owner = .ok ub) :
    ∃ r, getRow L "UserTable" [owner] = some r ∧ r.payload = ub := by
  have hk : GetNumberOfKeys "UserTable" = 1 := by decide
  unfold ValidateMember QueryLedger keyColumns at h
  simp only [hk, List.length_cons, List.length_nil, Nat.le_add_left, if_true,
    List.take_succ_cons, List.take_zero] at h
  cases hr : getRow L "UserTable" [owner] with
  | none => simp [hr] at h
  | some r =>
    refine ⟨r, rfl, ?_⟩
    simp only [hr] at h
    cases hp : ProcessQueryResult r.payload with
    | abort => simp [hp] at h
    | err e => simp [hp] at h
    | ok u =>
      simp only [hp, Res.ok.injEq] at h
      exact h

theorem JSONtoBid_BidtoJSON (bid : Bid) : JSONtoBid (BidtoJSON bid) = some bid := by
  cases bid
  simp [JSONtoBid, BidtoJSON, fieldStr, List.lookup]

/-- C6: for every bid that `PostBid` accepts, the row stored in the Bid table
under the contract id holds the record returned, and this record decodes to
a bid whose `UserID` is the fifth argument, the identifier that `PostBid`
has passed to `ValidateMember`; the User table has a row under that
identifier before the call and after it. -/
theorem PostBid_stored_user_validated (U : Undeclared) (tp : TimeParse) (now : String)
    (L L1 : Ledger) (args : List String) (b : Blob)
    (h : PostBid U tp now L args = (.ok b, L1)) :
    ∃ a0 a4 bid urow,
      args[0]? = some a0 ∧ args[4]? = some a4 ∧
      CreateBidObject args now = .ok bid ∧
      getRow L1 "BidTable" [a0] = some ⟨"BidTable", [a0], b⟩ ∧
      JSONtoBid b = some bid ∧
      bid.UserID = a4 ∧
      ValidateMember L a4 = .ok urow.payload ∧
      getRow L "UserTable" [bid.UserID] = some urow ∧
      getRow L1 "UserTable" [bid.UserID] = some urow := by
  obtain ⟨a0, a1, a2, a3, a4, a5, ub, RBytes, aucR, rfl, hc, hv, -, -, -, -, -, -, hb, hu⟩ :=
    PostBid_ok_inv h
  obtain ⟨-, -, hnone, hL1⟩ := UpdateLedger_ok_inv hu
  rw [GetNumberOfKeys_BidTable] at hnone hL1
  simp only [List.take_succ_cons, List.take_zero] at hnone hL1
  obtain ⟨urow, hrow, hpay⟩ := ValidateMember_ok_row hv
  refine ⟨a0, a4, ⟨a0, a1, a2, a3, a4, a5, now⟩, urow, rfl, rfl, hc, ?_, ?_, rfl, ?_, hrow, ?_⟩
  · rw [hL1]; exact getRow_append_self L _ _ b hnone
  · rw [hb]; exact JSONtoBid_BidtoJSON _
  · rw [hpay]; exact hv
  · rw [hL1, getRow_append_other L _ "UserTable" [a4]
      (fun hh => absurd hh.1 (show "BidTable" ≠ "UserTable" by decide))]
    exact hrow

/-- Witness for C6: the documented bid by the user 300 is accepted on the
example ledger, the stored record names 300, and the User table has the row
of 300. -/
theorem PostBid_stored_user_validated_witness :
    PostBid byName stampParse "2016-06-28 18:40:57" demoLedger demoBidArgs
      = (.ok (BidtoJSON demoBid), demoLedger1) ∧
    ∃ a0 a4 bid urow,
      demoBidArgs[0]? = some a0 ∧ demoBidArgs[4]? = some a4 ∧
      CreateBidObject demoBidArgs "2016-06-28 18:40:57" = .ok bid ∧
      getRow demoLedger1 "BidTable" [a0] = some ⟨"BidTable", [a0], BidtoJSON demoBid⟩ ∧
      JSONtoBid (BidtoJSON demoBid) = some bid ∧
      bid.UserID = a4 ∧
      ValidateMember demoLedger a4 = .ok urow.payload ∧
      getRow demoLedger "UserTable" [bid.UserID] = some urow ∧
      getRow demoLedger1 "UserTable" [bid.UserID] = some urow :=
  ⟨by decide,
   PostBid_stored_user_validated byName stampParse "2016-06-28 18:40:57" demoLedger demoLedger1
    demoBidArgs (BidtoJSON demoBid) (by decide)⟩

/-! ## The highest bid -/

theorem highestBidLoop_key_column (nCol : Nat) (row : Row) (rest : List Row) (dat : JObj)
    (h : Int) (av : Option Blob) (hk : nCol < row.keys.length) :
    highestBidLoop nCol (row :: rest) dat h av = .err "GetHighestBid(0 operation failed. " := by
  unfold highestBidLoop columnBytes
  simp only [hk, if_true]

theorem UpdateItemObject_without_ItemTable (S : Settlement) (L : Ledger) (ar : Blob)
    (hammerPrice buyer : String) (h : L.defs.lookup "ItemTable" = none) :
    (UpdateItemObject S L ar hammerPrice buyer).1.isOk = false ∧
      (UpdateItemObject S L ar hammerPrice buyer).2 = L := by
  have hk : GetNumberOfKeys "ItemTable" = 0 := by decide
  unfold UpdateItemObject
  cases JSONtoAR ar with
  | none => exact ⟨rfl, rfl⟩
  | some c =>
    simp only
    cases Decrypt S.aes (S.bytes (getField ar.obj "AES_Key"))
        (S.bytes (getField ar.obj "ItemImage")) with
    | none => exact ⟨rfl, rfl⟩
    | some image =>
      simp only
      cases Encrypt S.aes (S.bytes S.GenAESKey) S.iv image with
      | none => exact ⟨rfl, rfl⟩
      | some enc =>
        simp [ReplaceLedgerEntry, keyColumns, hk, replaceRow, h, Res.isOk]

theorem UpdateItemObject_panics (S : Settlement) (L : Ledger) (ar : Blob)
    (hammerPrice buyer : String) (c : ContractObject) (hj : JSONtoAR ar = some c)
    (h : ¬ ((S.bytes (getField ar.obj "AES_Key")).length = 16 ∨
          (S.bytes (getField ar.obj "AES_Key")).length = 24 ∨
          (S.bytes (getField ar.obj "AES_Key")).length = 32) ∨
        (S.bytes (getField ar.obj "ItemImage")).length < 16) :
    UpdateItemObject S L ar hammerPrice buyer = (.abort, L) := by
  have hd : Decrypt S.aes (S.bytes (getField ar.obj "AES_Key"))
      (S.bytes (getField ar.obj "ItemImage")) = none := by
    unfold Decrypt
    rcases h with h | h
    · rw [if_neg h]
    · rw [if_pos h]
      split <;> rfl
  unfold UpdateItemObject
  simp only [hj, hd]

theorem PostTransaction_without_ItemTable (S : Settlement) (L : Ledger) (function : String)
    (args : List String) (h : L.defs.lookup "ItemTable" = none) :
    (PostTransaction S L function args).1.isOk = false ∧
      (PostTransaction S L function args).2 = L := by
  unfold PostTransaction
  by_cases hf : function = "PostTransaction"
  · simp only [hf, ne_eq, not_true_eq_false, if_false]
    cases CreateTransactionRequest args with
    | err e => exact ⟨rfl, rfl⟩
    | abort => exact ⟨rfl, rfl⟩
    | ok ar =>
      simp only
      cases ValidateMember L ar.UserId with
      | err e => exact ⟨rfl, rfl⟩
      | abort => exact ⟨rfl, rfl⟩
      | ok ub =>
        simp only
        cases ValidateItemSubmission L (S.TranItemID args) with
        | err e => exact ⟨rfl, rfl⟩
        | abort => exact ⟨rfl, rfl⟩
        | ok last =>
          simp only
          obtain ⟨h1, h2⟩ := UpdateItemObject_without_ItemTable S L last (S.HammerPrice args)
            ar.UserId h
          rcases hu : UpdateItemObject S L last (S.HammerPrice args) ar.UserId with ⟨r, L1⟩
          rw [hu] at h1 h2
          simp only at h1 h2
          subst h2
          cases r with
          | err e => exact ⟨rfl, rfl⟩
          | abort => exact ⟨rfl, rfl⟩
          | ok k => simp [Res.isOk] at h1
  · simp [hf, Res.isOk]

theorem freshLedger_without_ItemTable : freshLedger.defs.lookup "ItemTable" = none := by
  decide

/-! ## Record-type tokens -/

theorem ChkReqType_eq_true_iff (args : List String) :
    ChkReqType args = true ↔ ∃ a ∈ args, a ∈ recType := by
  induction args with
  | nil => simp [ChkReqType]
  | cons rt rest ih =>
    unfold ChkReqType
    cases h : recType.any (fun val => decide (val = rt)) with
    | true =>
      simp only [if_true, true_iff]
      refine ⟨rt, List.mem_cons_self _ _, ?_⟩
      obtain ⟨v, hv, he⟩ := List.any_eq_true.mp h
      have hvr : v = rt := of_decide_eq_true he
      exact hvr ▸ hv
    | false =>
      simp only [Bool.false_eq_true, if_false]
      rw [ih]
      constructor
      · rintro ⟨a, ha, hr⟩
        exact ⟨a, List.mem_cons_of_mem _ ha, hr⟩
      · rintro ⟨a, ha, hr⟩
        rcases List.mem_cons.mp ha with rfl | ha
        · have ht : recType.any (fun val => decide (val = a)) = true :=
            List.any_eq_true.mpr ⟨a, hr, decide_eq_true rfl⟩
          rw [h] at ht
          exact absurd ht (by simp)
        · exact ⟨a, ha, hr⟩

/-- C16: `ChkReqType` is true exactly when some argument, at whatever
position, is one of the six record-type tokens. -/
theorem ChkReqType_iff_token (args : List String) :
    ChkReqType args = true ↔
      ∃ (i : Nat) (a : String), args[i]? = some a ∧
        a ∈ ["USER", "CREATECONTR", "BID", "POSTTRAN", "CLOSECONTRACT", "CANCELCONTRACT"] := by
  rw [ChkReqType_eq_true_iff]
  constructor
  · rintro ⟨a, ha, hr⟩
    obtain ⟨i, hi⟩ := List.getElem?_of_mem ha
    exact ⟨i, a, hi, hr⟩
  · rintro ⟨i, a, hi, hr⟩
    exact ⟨a, List.getElem?_mem hi, hr⟩

/-! ## Posting a contract -/

theorem CreateContract_ok_inv {k : String} {args : List String} {r : ContractRecord}
    (h : CreateContract k args = .ok r) :
    ∃ a0 a1 a2 a3 a4 a5 a6 a7 a8 a9 a10 v,
      args = [a0, a1, a2, a3, a4, a5, a6, a7, a8, a9, a10] ∧ Atoi a0 = some v ∧
      r = { AES_Key := k, ContractId := a0, Amount := a1, Duration := a2,
            BusinessRule := a3, Type' := a4, RequirementDescription := a5,
            Description := a6, Terms := a7, CreationDate := a8, UserID := a9,
            Status := "OPEN", RecType := a10 } := by
  unfold CreateContract at h
  split at h
  · rename_i a0 a1 a2 a3 a4 a5 a6 a7 a8 a9 a10
    split at h
    · simp at h
    · rename_i v hv
      simp only [Res.ok.injEq] at h
      exact ⟨a0, a1, a2, a3, a4, a5, a6, a7, a8, a9, a10, v, rfl, hv, h.symm⟩
  · simp at h

/-- C13: `CreateContract` returns an error exactly when the argument list
does not have eleven elements or its first element is no integer for `Atoi`;
in every other case it returns a record, and it never panics. -/
theorem CreateContract_error_iff (k : String) (args : List String) :
    ((CreateContract k args).isErr = true ↔
      (args.length ≠ 11 ∨ args.head?.bind Atoi = none)) ∧
    ((CreateContract k args).isOk = true ↔
      (args.length = 11 ∧ ∃ v, args.head?.bind Atoi = some v)) ∧
    CreateContract k args ≠ .abort := by
  unfold CreateContract
  split
  · rename_i a0 a1 a2 a3 a4 a5 a6 a7 a8 a9 a10
    cases hv : Atoi a0 with
    | none => simp [Res.isErr, Res.isOk, hv]
    | some v => simp [Res.isErr, Res.isOk, hv]
  · rename_i hne
    have hlen : args.length ≠ 11 := by
      intro hl
      match args, hl, hne with
      | [a0, a1, a2, a3, a4, a5, a6, a7, a8, a9, a10], _, hne =>
        exact hne a0 a1 a2 a3 a4 a5 a6 a7 a8 a9 a10 rfl
    simp [Res.isErr, Res.isOk, hlen]

/-- C14: a record that `CreateContract` returns has status OPEN, the first
argument as contract id, and the next ten arguments as amount, duration,
business rule, type, requirement description, description, terms, creation
date, owner and record type, in the order the fields are declared. -/
theorem CreateContract_fields (k : String) (args : List String) (r : ContractRecord)
    (h : CreateContract k args = .ok r) :
    r.Status = "OPEN" ∧
    args = [r.ContractId, r.Amount, r.Duration, r.BusinessRule, r.Type',
      r.RequirementDescription, r.Description, r.Terms, r.CreationDate, r.UserID,
      r.RecType] ∧
    r.AES_Key = k := by
  obtain ⟨a0, a1, a2, a3, a4, a5, a6, a7, a8, a9, a10, v, rfl, -, rfl⟩ :=
    CreateContract_ok_inv h
  exact ⟨rfl, rfl, rfl⟩

/-- Witness for C14, on the example posting. -/
theorem CreateContract_fields_witness :
    (∃ r, CreateContract "key-1" postArgs = .ok r ∧ r.Status = "OPEN" ∧
      r.ContractId = "1000" ∧ r.UserID = "100" ∧ r.RecType = "CREATECONTR") :=
  ⟨_, (by decide : CreateContract "key-1" postArgs = .ok
        { AES_Key := "key-1", ContractId := "1000", Amount := "500", Duration := "30",
          BusinessRule := "rule", Type' := "Landscape",
          RequirementDescription := "requirement", Description := "description",
          Terms := "terms", CreationDate := "2016-06-01 10:00:00", UserID := "100",
          Status := "OPEN", RecType := "CREATECONTR" }),
    (CreateContract_fields "key-1" postArgs _ (by decide)).1, rfl, rfl, rfl⟩

theorem ValidateMember_no_row (L : Ledger) (owner : String)
    (h : getRow L "UserTable" [owner] = none) :
    ValidateMember L owner
      = .err ("\x7b\"Error\":\"Failed to get Owner Object Data for " ++ owner ++ "\"\x7d") := by
  have hk : GetNumberOfKeys "UserTable" = 1 := by decide
  unfold ValidateMember QueryLedger keyColumns
  simp [hk, h]

/-- C15: when the arguments pass `CreateContract` and the User table has no
row for the owner named in them, `PostRequest` returns the owner error and
the ledger, with its Contract table, history and category index, is as it
was, whatever the log helper would do. -/
theorem PostRequest_unknown_owner (S : Settlement) (L : Ledger) (args : List String)
    (r : ContractRecord)
    (hc : CreateContract S.GenAESKey args = .ok r)
    (hu : getRow L "UserTable" [r.UserID] = none) :
    PostRequest S L args
      = (.err ("\x7b\"Error\":\"Failed to get Owner Object Data for " ++ r.UserID ++ "\"\x7d"),
          L) := by
  unfold PostRequest
  simp only [hc, ValidateMember_no_row L r.UserID hu]

/-- Witness for C15: the example posting by the unregistered user 999 is
refused and the example ledger is unchanged. -/
theorem PostRequest_unknown_owner_witness :
    PostRequest demoSettlement demoLedger postArgsUnknownOwner
      = (.err "\x7b\"Error\":\"Failed to get Owner Object Data for 999\"\x7d", demoLedger) :=
  PostRequest_unknown_owner demoSettlement demoLedger postArgsUnknownOwner
    { AES_Key := demoSettlement.GenAESKey, ContractId := "1000", Amount := "500",
      Duration := "30",
      BusinessRule := "rule", Type' := "Landscape",
      RequirementDescription := "requirement", Description := "description",
      Terms := "terms", CreationDate := "2016-06-01 10:00:00", UserID := "999",
      Status := "OPEN", RecType := "CREATECONTR" }
    (by decide) (by decide)

/-! ## Dispatch -/

/-- C17: for a non-empty argument list without a record-type token, `Invoke`
returns the invalid-recType error naming the first argument and the ledger
is as it was, whatever the function name and whatever the handlers are. -/
theorem Invoke_without_token (E : Env) (L : Ledger) (function : String) (a0 : String)
    (rest : List String) (h : ∀ a ∈ a0 :: rest, a ∉ recType) :
    Invoke E L function (a0 :: rest)
      = (.err ("Invoke() : Invalid recType : " ++ a0), L) := by
  have hc : ChkReqType (a0 :: rest) = false := by
    cases hb : ChkReqType (a0 :: rest) with
    | false => rfl
    | true =>
      obtain ⟨a, ha, hr⟩ := (ChkReqType_eq_true_iff (a0 :: rest)).mp hb
      exact absurd hr (h a ha)
  unfold Invoke
  simp [hc]

/-- Witness for C17: `PostBid` with the arguments 1111, bid, 1 has no token
and is refused before any handler runs. -/
theorem Invoke_without_token_witness :
    Invoke demoEnv demoLedger "PostBid" ["1111", "bid", "1"]
      = (.err "Invoke() : Invalid recType : 1111", demoLedger) :=
  Invoke_without_token demoEnv demoLedger "PostBid" "1111" ["bid", "1"] (by decide)

theorem Invoke_nil_handler (E : Env) (L : Ledger) (function : String) (args : List String)
    (hc : ChkReqType args = true) (hf : InvokeFunction E function = none) :
    Invoke E L function args = (.ok (.raw []), L) := by
  unfold Invoke
  simp [hc, hf]

/-- C18 (code at the failing input): with the token BID among the arguments
and a function name the dispatch table does not have, `Invoke` returns nil
payload and nil error, a success, where `Query` on the same input returns
its invalid-function error. -/
theorem Invoke_unknown_function_succeeds :
    ChkReqType ["1111", "BID"] = true ∧
    (InvokeFunction demoEnv "NoSuchFunction").isSome = false ∧
    Invoke demoEnv demoLedger "NoSuchFunction" ["1111", "BID"]
      = (.ok (.raw []), demoLedger) ∧
    Query demoEnv demoLedger "NoSuchFunction" ["1111", "BID"]
      = .err "Query() : Invalid function call : NoSuchFunction" := by
  decide

/-- C19 (code at the failing input): the dispatch table has handlers for
`PostRequest`, `PostBid`, `PostTransaction` and `SelectBidder`, and has the
close handler under the name `CloseConract`; for `CloseContract` it has
none, so `Invoke` with that name and a record-type token returns nil payload
and nil error without running the handler. -/
theorem InvokeFunction_CloseContract_unmapped (E : Env) (L : Ledger) :
    (InvokeFunction E "PostRequest").isSome = true ∧
    (InvokeFunction E "PostBid").isSome = true ∧
    (InvokeFunction E "PostTransaction").isSome = true ∧
    (InvokeFunction E "SelectBidder").isSome = true ∧
    (InvokeFunction E "CloseConract").isSome = true ∧
    (InvokeFunction E "CloseContract").isSome = false ∧
    Invoke E L "CloseContract" ["1111", "CLOSECONTRACT"] = (.ok (.raw []), L) := by
  refine ⟨rfl, rfl, rfl, rfl, rfl, rfl, ?_⟩
  exact Invoke_nil_handler E L "CloseContract" ["1111", "CLOSECONTRACT"] (by decide) rfl

theorem QueryFunction_isSome_iff (E : Env) (name : String) :
    (QueryFunction E name).isSome = true ↔
      name ∈ ["GetUser", "GetContract", "GetUserContract", "GetBidders", "ViewContracts",
        "GetUserBidds", "GetVersion"] := by
  unfold QueryFunction QueryFunc
  simp only [List.lookup]
  repeat' split
  all_goals simp_all

/-- C20: `QueryFunction` has a handler exactly for the seven names GetUser,
GetContract, GetUserContract, GetBidders, ViewContracts, GetUserBidds and
GetVersion, and `Query` with any other function name and a non-empty
argument list returns the invalid-function error, whatever the handlers
are. -/
theorem QueryFunction_exactly_seven :
    (∀ (E : Env) (name : String),
      (QueryFunction E name).isSome = true ↔
        name ∈ ["GetUser", "GetContract", "GetUserContract", "GetBidders", "ViewContracts",
          "GetUserBidds", "GetVersion"]) ∧
    (∀ (E : Env) (L : Ledger) (function a0 : String) (rest : List String),
      function ∉ ["GetUser", "GetContract", "GetUserContract", "GetBidders", "ViewContracts",
          "GetUserBidds", "GetVersion"] →
      Query E L function (a0 :: rest)
        = .err ("Query() : Invalid function call : " ++ function)) := by
  refine ⟨QueryFunction_isSome_iff, ?_⟩
  intro E L function a0 rest hn
  have hnone : QueryFunction E function = none := by
    cases hq : QueryFunction E function with
    | none => rfl
    | some h =>
      have hs : (QueryFunction E function).isSome = true := by rw [hq]; rfl
      exact absurd ((QueryFunction_isSome_iff E function).mp hs) hn
  unfold Query
  simp [hnone]

/-- Witness for C20: `GetBid` is none of the seven names and is refused. -/
theorem QueryFunction_exactly_seven_witness :
    Query demoEnv demoLedger "GetBid" ["1111", "1"]
      = .err ("Query() : Invalid function call : " ++ "GetBid") :=
  QueryFunction_exactly_seven.2 demoEnv demoLedger "GetBid" "1111" ["1"] (by decide)

/-! ## Reading a posted contract back -/

theorem lookup_filter_ne (o : JObj) (k k' : String) (h : k' ≠ k) :
    List.lookup k' (o.filter (fun kv => kv.1 ≠ k)) = List.lookup k' o := by
  induction o with
  | nil => rfl
  | cons kv rest ih =>
    obtain ⟨a, v⟩ := kv
    by_cases hak : a = k
    · subst hak
      have hne : (k' == a) = false := by simpa using h
      have hf : List.filter (fun kv : String × JVal => decide (kv.1 ≠ a)) ((a, v) :: rest)
          = List.filter (fun kv : String × JVal => decide (kv.1 ≠ a)) rest := by
        simp [List.filter]
      rw [hf, ih]
      simp [List.lookup, hne]
    · have hf : List.filter (fun kv : String × JVal => decide (kv.1 ≠ k)) ((a, v) :: rest)
          = (a, v) :: List.filter (fun kv : String × JVal => decide (kv.1 ≠ k)) rest := by
        simp [List.filter, hak]
      rw [hf]
      simp only [List.lookup]
      rw [ih]

theorem getField_setField_ne (o : JObj) (k k' v : String) (h : k' ≠ k) :
    getField (setField o k v) k' = getField o k' := by
  have hne : (k' == k) = false := by simpa using h
  unfold getField assertStr setField
  simp only [List.lookup, hne, lookup_filter_ne o k k' h]

theorem getField_setField_self (o : JObj) (k v : String) :
    getField (setField o k v) k = v := by
  unfold getField assertStr setField
  simp [List.lookup]

theorem ProcessQueryResult_recordJSON (r : ContractRecord)
    (h : r.RecType ∈ ["USER", "CREATECONTR", "CLOSECONTRACT", "CANCELCONTRACT", "POSTTRAN",
      "BID", "DEFAULT", "XFER", "VERIFY"]) :
    ProcessQueryResult (recordJSON r) = .ok () := by
  have hrt : assertStr (recordJSON r).obj "RecType" = some r.RecType := by
    simp [recordJSON, ARtoJSON, Blob.obj, assertStr, List.lookup]
  have hU : JSONtoUser (recordJSON r) ≠ none := by
    simp [recordJSON, ARtoJSON, Blob.obj, JSONtoUser, fieldStr, List.lookup]
  have hC : decodeContract (recordJSON r) ≠ none := by
    simp [recordJSON, ARtoJSON, Blob.obj, decodeContract, fieldStr, List.lookup]
  have hT : JSONtoTran (recordJSON r) ≠ none := by
    simp [recordJSON, ARtoJSON, Blob.obj, JSONtoTran, fieldStr, List.lookup]
  have hB : JSONtoBid (recordJSON r) ≠ none := by
    simp [recordJSON, ARtoJSON, Blob.obj, JSONtoBid, fieldStr, List.lookup]
  have hd : ∀ {α : Type} (x : Option α), x ≠ none → decodeErr x = .ok () := by
    intro α x hx
    cases x with
    | none => exact absurd rfl hx
    | some _ => rfl
  have hobj : recordJSON r = .json (recordJSON r).obj := rfl
  rw [hobj]
  unfold ProcessQueryResult
  simp only [hrt]
  rw [← hobj]
  simp only [JSONtoAR, JSONtoAucReq, hd _ hU, hd _ hC, hd _ hT, hd _ hB]
  simp only [List.mem_cons, List.mem_singleton, List.not_mem_nil, or_false] at h
  rcases h with h | h | h | h | h | h | h | h | h <;> simp [h]

theorem PostRequest_ok_inv {S : Settlement} {L L3 : Ledger} {args : List String} {b : Blob}
    (h : PostRequest S L args = (.ok b, L3)) :
    ∃ r a4 L1 L2 lb,
      CreateContract S.GenAESKey args = .ok r ∧
      UpdateLedger L "ContractTable" [r.ContractId] (recordJSON r) = (.ok (), L1) ∧
      S.PostItemLog L1 (recordJSON r).obj "INITIAL" "DEFAULT" = (.ok lb, L2) ∧
      UpdateLedger L2 "ContractCatTable" ["2016", a4, r.ContractId] (recordJSON r)
        = (.ok (), L3) ∧
      b = marshalKey r.ContractId := by
  unfold PostRequest at h
  cases hc : CreateContract S.GenAESKey args with
  | err e => simp [hc] at h
  | abort => simp [hc] at h
  | ok r =>
    obtain ⟨a0, a1, a2, a3, a4, a5, a6, a7, a8, a9, a10, v, rfl, -, rfl⟩ :=
      CreateContract_ok_inv hc
    simp only [hc, List.getElem?_cons_succ, List.getElem?_cons_zero] at h
    split at h
    · simp at h
    · simp at h
    · split at h
      · simp at h
      · simp at h
      · rename_i u1 L1 hu1
        split at h
        · simp at h
        · simp at h
        · rename_i lb L2 hl
          split at h
          · simp at h
          · simp at h
          · rename_i u3 L3' hu3
            simp only [Prod.mk.injEq, Res.ok.injEq] at h
            obtain ⟨hb, rfl⟩ := h
            exact ⟨_, a4, L1, L2, lb, rfl, hu1, hl, hu3, hb.symm⟩

/-- C12 (counterexample): the posting of contract 1000 has eleven arguments,
an integer id, the registered owner 100 and the token `CREATECONTR` among
its arguments, and `Invoke` accepts it and returns the id; its last
argument, stored as the record type, is `CONTRACT`, and `GetContract` on the
id panics with one argument and fails with two. -/
theorem GetContract_after_post_fails :
    ChkReqType postArgsTokenInside = true ∧
    (Invoke demoEnv demoLedger "PostRequest" postArgsTokenInside).1
      = .ok (marshalKey "1000") ∧
    Query demoEnv (Invoke demoEnv demoLedger "PostRequest" postArgsTokenInside).2
      "GetContract" ["1000"] = .abort ∧
    Query demoEnv (Invoke demoEnv demoLedger "PostRequest" postArgsTokenInside).2
      "GetContract" ["1000", "CREATECONTR"] = .err "Query() : Object not found : 1000" := by
  decide

/-- C12 (amended): when `PostRequest` accepts a posting whose last argument,
stored as the record type, is one that `ProcessQueryResult` knows, and the
log helper leaves the Contract table as it is, then `GetContract` on the
returned contract id succeeds and returns the stored record with `ItemImage`
emptied: every other field reads as in the stored record. -/
theorem PostRequest_GetContract_roundtrip (S : Settlement) (L L3 : Ledger)
    (args : List String) (b : Blob)
    (hp : PostRequest S L args = (.ok b, L3))
    (hrt : ∃ t, args[10]? = some t ∧
      t ∈ ["USER", "CREATECONTR", "CLOSECONTRACT", "CANCELCONTRACT", "POSTTRAN",
        "BID", "DEFAULT", "XFER", "VERIFY"])
    (hlog : ∀ (L1 : Ledger) (o : JObj) (s1 s2 : String) (k : List String),
      getRow (S.PostItemLog L1 o s1 s2).2 "ContractTable" k = getRow L1 "ContractTable" k) :
    ∃ r, CreateContract S.GenAESKey args = .ok r ∧ b = marshalKey r.ContractId ∧
      getRow L3 "ContractTable" [r.ContractId]
        = some ⟨"ContractTable", [r.ContractId], recordJSON r⟩ ∧
      GetContract L3 [r.ContractId]
        = .ok (.json (setField (recordJSON r).obj "ItemImage" "")) ∧
      (∀ k, k ≠ "ItemImage" →
        getField (setField (recordJSON r).obj "ItemImage" "") k
          = getField (recordJSON r).obj k) ∧
      getField (setField (recordJSON r).obj "ItemImage" "") "ItemImage" = "" := by
  obtain ⟨r, a4, L1, L2, lb, hc, hu1, hl, hu3, hb⟩ := PostRequest_ok_inv hp
  have h1 : GetNumberOfKeys "ContractTable" = 1 := by decide
  have h2 : GetNumberOfKeys "ContractCatTable" = 2 := by decide
  obtain ⟨-, -, hn1, hL1⟩ := UpdateLedger_ok_inv hu1
  obtain ⟨-, -, -, hL3⟩ := UpdateLedger_ok_inv hu3
  rw [h1] at hn1 hL1
  rw [h2] at hL3
  simp only [List.take_succ_cons, List.take_zero] at hn1 hL1 hL3
  have hrow1 : getRow L1 "ContractTable" [r.ContractId]
      = some ⟨"ContractTable", [r.ContractId], recordJSON r⟩ := by
    rw [hL1]; exact getRow_append_self L _ _ _ hn1
  have hrow2 : getRow L2 "ContractTable" [r.ContractId]
      = some ⟨"ContractTable", [r.ContractId], recordJSON r⟩ := by
    have := hlog L1 (recordJSON r).obj "INITIAL" "DEFAULT" [r.ContractId]
    rw [hl] at this
    rw [this, hrow1]
  have hrow3 : getRow L3 "ContractTable" [r.ContractId]
      = some ⟨"ContractTable", [r.ContractId], recordJSON r⟩ := by
    rw [hL3, getRow_append_other L2 _ "ContractTable" [r.ContractId]
      (fun hh => absurd hh.1 (show "ContractCatTable" ≠ "ContractTable" by decide)), hrow2]
  have hknown : r.RecType ∈ ["USER", "CREATECONTR", "CLOSECONTRACT", "CANCELCONTRACT",
      "POSTTRAN", "BID", "DEFAULT", "XFER", "VERIFY"] := by
    obtain ⟨a0, a1, a2, a3, a4', a5, a6, a7, a8, a9, a10, v, rfl, -, rfl⟩ :=
      CreateContract_ok_inv hc
    obtain ⟨t, ht, hmem⟩ := hrt
    simp only [List.getElem?_cons_succ, List.getElem?_cons_zero, Option.some.injEq] at ht
    subst ht
    exact hmem
  refine ⟨r, hc, hb, hrow3, ?_, fun k hk => getField_setField_ne _ _ _ _ hk,
    getField_setField_self _ _ _⟩
  unfold GetContract QueryLedger keyColumns
  simp only [h1, List.length_singleton, le_refl, if_true, List.take_succ_cons, List.take_zero,
    hrow3, ProcessQueryResult_recordJSON r hknown]

/-- Witness for C12 (amended): the example posting with `CREATECONTR` as
last argument is accepted on the example ledger and read back. -/
theorem PostRequest_GetContract_roundtrip_witness :
    ∃ r, CreateContract demoSettlement.GenAESKey postArgs = .ok r ∧
      GetContract (PostRequest demoSettlement demoLedger postArgs).2 [r.ContractId]
        = .ok (.json (setField (recordJSON r).obj "ItemImage" "")) := by
  obtain ⟨r, hc, -, -, hg, -, -⟩ :=
    PostRequest_GetContract_roundtrip demoSettlement demoLedger
      (PostRequest demoSettlement demoLedger postArgs).2 postArgs (marshalKey "1000")
      (by decide) ⟨"CREATECONTR", by decide, by decide⟩ (fun _ _ _ _ _ => rfl)
  exact ⟨r, hc, hg⟩

/-! ## Replacing a row -/

theorem getRow_replaced (rows : List Row) (t : String) (keys : List String) (p : Blob)
    (t2 : String) (k2 : List String) :
    List.find? (fun r => decide (r.table = t2 ∧ r.keys = k2))
        (rows.map (fun r => if r.table = t ∧ r.keys = keys then ⟨t, keys, p⟩ else r))
      = (List.find? (fun r => decide (r.table = t2 ∧ r.keys = k2)) rows).map
          (fun r => if r.table = t ∧ r.keys = keys then ⟨t, keys, p⟩ else r) := by
  induction rows with
  | nil => rfl
  | cons r rest ih =>
    have hpres : decide ((if r.table = t ∧ r.keys = keys then (⟨t, keys, p⟩ : Row) else r).table = t2
        ∧ (if r.table = t ∧ r.keys = keys then (⟨t, keys, p⟩ : Row) else r).keys = k2)
        = decide (r.table = t2 ∧ r.keys = k2) := by
      by_cases hm : r.table = t ∧ r.keys = keys
      · rw [if_pos hm]
        simp only [hm.1, hm.2]
      · rw [if_neg hm]
    simp only [List.map_cons, List.find?_cons, hpres]
    cases hd : decide (r.table = t2 ∧ r.keys = k2) with
    | true => rfl
    | false => exact ih

theorem replaceRow_present (L : Ledger) (t : String) (keys : List String) (p : Blob) (r : Row)
    (hT : L.defs.lookup t = some keys.length) (hr : getRow L t keys = some r) :
    replaceRow L t keys p
      = (.ok true, { L with rows := L.rows.map (fun r =>
          if r.table = t ∧ r.keys = keys then ⟨t, keys, p⟩ else r) }) := by
  unfold replaceRow
  simp [hT, hr]

theorem replaceRow_absent (L : Ledger) (t : String) (keys : List String) (p : Blob)
    (hT : L.defs.lookup t = some keys.length) (hr : getRow L t keys = none) :
    replaceRow L t keys p = (.ok false, L) := by
  unfold replaceRow
  simp [hT, hr]

/-- C21: for a table of the store, created as `Init` creates it, and a key
list that supplies its keys, `ReplaceLedgerEntry` returns an error and leaves
the ledger as it was when no row is stored under the key; when a row is
stored it succeeds, the row then read under the key has the new payload, and
every row under another key or in another table reads as before. -/
theorem ReplaceLedgerEntry_semantics (L : Ledger) (t : String) (keys : List String) (p : Blob)
    (ht : t ∈ aucTables) (hT : L.defs.lookup t = some (GetNumberOfKeys t))
    (hk : GetNumberOfKeys t ≤ keys.length) :
    (getRow L t (keys.take (GetNumberOfKeys t)) = none →
      ∃ msg, ReplaceLedgerEntry L t keys p = (.err msg, L)) ∧
    (∀ r, getRow L t (keys.take (GetNumberOfKeys t)) = some r →
      ∃ L1, ReplaceLedgerEntry L t keys p = (.ok (), L1) ∧
        getRow L1 t (keys.take (GetNumberOfKeys t))
          = some ⟨t, keys.take (GetNumberOfKeys t), p⟩ ∧
        (∀ t2 k2, ¬ (t2 = t ∧ k2 = keys.take (GetNumberOfKeys t)) →
          getRow L1 t2 k2 = getRow L t2 k2) ∧
        L1.defs = L.defs ∧ L1.rows.length = L.rows.length) := by
  have h1 := aucTables_have_keys t ht
  have hlen : (List.take (GetNumberOfKeys t) keys).length = GetNumberOfKeys t := by
    rw [List.length_take, Nat.min_eq_left hk]
  have hT2 : L.defs.lookup t = some (List.take (GetNumberOfKeys t) keys).length := by
    rw [hlen]; exact hT
  refine ⟨?_, ?_⟩
  · intro hn
    unfold ReplaceLedgerEntry keyColumns
    simp only [hk, if_true, replaceRow_absent L t _ p hT2 hn]
    cases keys with
    | nil => simp at hk; omega
    | cons k0 ks => exact ⟨_, rfl⟩
  · intro r hr
    refine ⟨{ L with rows := L.rows.map (fun r =>
        if r.table = t ∧ r.keys = keys.take (GetNumberOfKeys t)
        then ⟨t, keys.take (GetNumberOfKeys t), p⟩ else r) }, ?_, ?_, ?_, rfl, ?_⟩
    · unfold ReplaceLedgerEntry keyColumns
      simp only [hk, if_true, replaceRow_present L t _ p r hT2 hr]
    · unfold getRow at hr ⊢
      simp only [getRow_replaced, hr, Option.map_some']
      have hm := List.find?_some hr
      simp only [decide_eq_true_eq] at hm
      simp [hm]
    · intro t2 k2 hne
      unfold getRow
      simp only [getRow_replaced]
      cases hf : List.find? (fun r => decide (r.table = t2 ∧ r.keys = k2)) L.rows with
      | none => rfl
      | some x =>
        have hm := List.find?_some hf
        simp only [decide_eq_true_eq] at hm
        have hx : ¬ (x.table = t ∧ x.keys = List.take (GetNumberOfKeys t) keys) := by
          intro hh
          exact hne ⟨hm.1 ▸ hh.1, hm.2 ▸ hh.2⟩
        simp [hx]
    · simp

/-- Witness for C21: on the example ledger the user row of 100 is replaced,
and a replace for the unknown user 7 is refused. -/
theorem ReplaceLedgerEntry_semantics_witness :
    (∃ msg, ReplaceLedgerEntry demoLedger "UserTable" ["7"] namedUser = (.err msg, demoLedger)) ∧
    (∃ L1, ReplaceLedgerEntry demoLedger "UserTable" ["100"] namedUser = (.ok (), L1) ∧
      getRow L1 "UserTable" ["100"] = some ⟨"UserTable", ["100"], namedUser⟩) :=
  ⟨(ReplaceLedgerEntry_semantics demoLedger "UserTable" ["7"] namedUser
      (by decide) (by decide) (by decide)).1 (by decide),
   by
    obtain ⟨L1, h1, h2, -⟩ :=
      (ReplaceLedgerEntry_semantics demoLedger "UserTable" ["100"] namedUser
        (by decide) (by decide) (by decide)).2 (demoUser "100") (by decide)
    exact ⟨L1, h1, h2⟩⟩

/-! ## Key arity -/

theorem GetNumberOfKeys_other (name : String)
    (h : name ∉ ["UserTable", "UserCatTable", "ContractTable", "ContractCatTable",
      "ContractOpenTable", "BidTable", "BidCatTable", "BidHistoryTable", "TransTable"]) :
    GetNumberOfKeys name = 0 := by
  unfold GetNumberOfKeys TableMap
  simp only [List.lookup]
  repeat' split
  all_goals simp_all

/-- C22 (counterexample): the Bid table has one key and the key list 1111, 1
has two, yet `UpdateLedger` stores the row; `QueryLedger` and
`ReplaceLedgerEntry` on the User table, of one key, accept the two-element
list 100, USER; and `UpdateLedger` on the Transaction table, of two keys,
panics on a list of one. -/
theorem arity_mismatch_not_refused :
    GetNumberOfKeys "BidTable" = 1 ∧
    UpdateLedger demoLedger "BidTable" ["1111", "1"] (BidtoJSON demoBid)
      = (.ok (), demoLedger1) ∧
    GetNumberOfKeys "UserTable" = 1 ∧
    QueryLedger demoLedger "UserTable" ["100", "USER"] = .ok (demoUser "100").payload ∧
    (ReplaceLedgerEntry demoLedger "UserTable" ["100", "USER"] namedUser).1 = .ok () ∧
    GetNumberOfKeys "TransTable" = 2 ∧
    UpdateLedger demoLedger "TransTable" ["5000"] namedUser = (.abort, demoLedger) := by
  decide

/-- C22 (amended): for a table name that is not in the arity map and was not
created, `UpdateLedger` and `ReplaceLedgerEntry` return an error and leave
the ledger as it was, and `QueryLedger` with at least one argument returns an
error; for a table of the store, a key list longer than its arity is not
refused: insert and replace act as on its first keys, and the query reads the
row stored under its first keys. -/
theorem arity_check_semantics :
    (∀ (L : Ledger) (t : String) (keys : List String) (p : Blob),
      GetNumberOfKeys t = 0 → L.defs.lookup t = none →
      (∃ msg, UpdateLedger L t keys p = (.err msg, L)) ∧
      (∃ msg, ReplaceLedgerEntry L t keys p = (.err msg, L)) ∧
      (keys ≠ [] → getRow L t [] = none → ∃ msg, QueryLedger L t keys = .err msg)) ∧
    (∀ (L : Ledger) (t : String) (keys : List String) (p : Blob),
      t ∈ aucTables → GetNumberOfKeys t ≤ keys.length →
      UpdateLedger L t keys p = UpdateLedger L t (keys.take (GetNumberOfKeys t)) p ∧
      ReplaceLedgerEntry L t keys p
        = ReplaceLedgerEntry L t (keys.take (GetNumberOfKeys t)) p ∧
      (∀ b, getRow L t (keys.take (GetNumberOfKeys t))
            = some ⟨t, keys.take (GetNumberOfKeys t), b⟩ →
          ProcessQueryResult b = .ok () → QueryLedger L t keys = .ok b)) := by
  refine ⟨?_, ?_⟩
  · intro L t keys p h0 hd
    refine ⟨?_, ?_, ?_⟩
    · unfold UpdateLedger keyColumns insertRow
      simp only [h0, Nat.zero_le, if_true, hd]
      exact ⟨_, rfl⟩
    · unfold ReplaceLedgerEntry keyColumns replaceRow
      simp only [h0, Nat.zero_le, if_true, hd]
      exact ⟨_, rfl⟩
    · intro hne hr
      cases keys with
      | nil => exact absurd rfl hne
      | cons k0 ks =>
        unfold QueryLedger keyColumns
        simp only [h0, Nat.zero_le, if_true, List.take_zero, hr]
        exact ⟨_, rfl⟩
  · intro L t keys p ht hk
    have h1 := aucTables_have_keys t ht
    have hlen : (List.take (GetNumberOfKeys t) keys).length = GetNumberOfKeys t := by
      rw [List.length_take, Nat.min_eq_left hk]
    have htt : List.take (GetNumberOfKeys t) (List.take (GetNumberOfKeys t) keys)
        = List.take (GetNumberOfKeys t) keys := by
      rw [List.take_take, Nat.min_self]
    cases keys with
    | nil => simp at hk; omega
    | cons k0 ks =>
      obtain ⟨n, hn⟩ : ∃ n, GetNumberOfKeys t = n + 1 := ⟨GetNumberOfKeys t - 1, by omega⟩
      refine ⟨?_, ?_, ?_⟩
      · unfold UpdateLedger keyColumns
        simp only [hk, hlen, le_refl, if_true, htt]
        simp only [hn, List.take_succ_cons]
      · unfold ReplaceLedgerEntry keyColumns
        simp only [hk, hlen, le_refl, if_true, htt]
        simp only [hn, List.take_succ_cons]
      · intro b hb hp
        unfold QueryLedger keyColumns
        simp only [hk, if_true, hb, hp]

/-- Witness for C22 (amended): `ItemTable` is not in the arity map and an
insert into it is refused; the two-element key list for the Bid table acts
as its first element. -/
theorem arity_check_semantics_witness :
    (∃ msg, UpdateLedger demoLedger "ItemTable" ["1111"] namedUser = (.err msg, demoLedger)) ∧
    UpdateLedger demoLedger "BidTable" ["1111", "1"] namedUser
      = UpdateLedger demoLedger "BidTable" (["1111", "1"].take (GetNumberOfKeys "BidTable"))
          namedUser :=
  ⟨(arity_check_semantics.1 demoLedger "ItemTable" ["1111"] namedUser
      (by decide) (by decide)).1,
   (arity_check_semantics.2 demoLedger "BidTable" ["1111", "1"] namedUser
      (by decide) (by decide)).1⟩

/-- C23: `GetNumberOfKeys` gives the catalogued arity for each of the nine
tables and 0 for every other name; every table of `aucTables` has at least
one key, `InitLedger` accepts each of them, and `Init` succeeds on every
ledger. -/
theorem GetNumberOfKeys_catalogue :
    GetNumberOfKeys "UserTable" = 1 ∧ GetNumberOfKeys "UserCatTable" = 2 ∧
    GetNumberOfKeys "ContractTable" = 1 ∧ GetNumberOfKeys "ContractCatTable" = 2 ∧
    GetNumberOfKeys "ContractOpenTable" = 2 ∧ GetNumberOfKeys "BidTable" = 1 ∧
    GetNumberOfKeys "BidCatTable" = 2 ∧ GetNumberOfKeys "BidHistoryTable" = 3 ∧
    GetNumberOfKeys "TransTable" = 2 ∧
    (∀ name, name ∉ ["UserTable", "UserCatTable", "ContractTable", "ContractCatTable",
        "ContractOpenTable", "BidTable", "BidCatTable", "BidHistoryTable", "TransTable"] →
      GetNumberOfKeys name = 0) ∧
    (∀ t, t ∈ aucTables → 1 ≤ GetNumberOfKeys t) ∧
    (∀ (L : Ledger) (t : String), t ∈ aucTables →
      InitLedger L t = (.ok (), createTable L t (GetNumberOfKeys t))) ∧
    (∀ L : Ledger, (Init L).1 = .ok ()) := by
  refine ⟨by decide, by decide, by decide, by decide, by decide, by decide, by decide,
    by decide, by decide, GetNumberOfKeys_other, aucTables_have_keys, ?_, ?_⟩
  · intro L t ht
    have h1 := aucTables_have_keys t ht
    unfold InitLedger
    simp [Nat.not_lt.mpr h1]
  · intro L
    have hstep : ∀ (ts : List String), (∀ t ∈ ts, t ∈ aucTables) →
        ∀ L0 : Ledger, (InitLoop ts L0).1 = .ok () := by
      intro ts
      induction ts with
      | nil => intro _ L0; rfl
      | cons t rest ih =>
        intro hts L0
        have h1 := aucTables_have_keys t (hts t (List.mem_cons_self _ _))
        unfold InitLoop InitLedger
        simp only [Nat.not_lt.mpr h1, if_false]
        exact ih (fun x hx => hts x (List.mem_cons_of_mem _ hx)) _
    exact hstep aucTables (fun t ht => ht) L

/-- Witness for C23: `ItemTable` is none of the nine names and has arity 0;
`InitLedger` accepts the Bid table. -/
theorem GetNumberOfKeys_catalogue_witness :
    GetNumberOfKeys "ItemTable" = 0 ∧
    InitLedger freshLedger "BidTable" = (.ok (), createTable freshLedger "BidTable" 1) :=
  ⟨GetNumberOfKeys_catalogue.2.2.2.2.2.2.2.2.2.1 "ItemTable" (by decide),
   GetNumberOfKeys_catalogue.2.2.2.2.2.2.2.2.2.2.2.1 freshLedger "BidTable" (by decide)⟩

/-! ## List queries and the asset payload -/

theorem xor_cancel (b k : Nat) : Nat.xor (Nat.xor b k) k = b := by
  show (b ^^^ k) ^^^ k = b
  rw [Nat.xor_assoc, Nat.xor_self, Nat.xor_zero]

theorem cfbStream_length (d : Bool) (E : List Nat → List Nat) (src : List Nat) :
    ∀ out next, (cfbStream d E out next src).length = src.length := by
  induction src with
  | nil => intro out next; rfl
  | cons b rest ih =>
    intro out next
    unfold cfbStream
    simp only [List.length_cons, ih]

theorem cfbStream_roundtrip (E : List Nat → List Nat) (src : List Nat) :
    ∀ out next, cfbStream true E out next (cfbStream false E out next src) = src := by
  induction src with
  | nil => intro out next; rfl
  | cons b rest ih =>
    intro out next
    rw [cfbStream.eq_2 false E out next b rest]
    rw [cfbStream.eq_2 true E out next]
    simp only [Bool.false_eq_true, if_false, if_true, xor_cancel, ih]

/-- C25: for a 32-byte key and the sixteen bytes of initialization vector
that `Encrypt` draws, the blob is the vector followed by as many cipher
bytes as the plain text has, and `Decrypt` under the same key gives the
plain text back, whatever the block encryption of the key is. -/
theorem Encrypt_Decrypt_roundtrip (aes : List Nat → List Nat → List Nat)
    (key iv p : List Nat) (hk : key.length = 32) (hiv : iv.length = 16) :
    ∃ c, Encrypt aes key iv p = some (iv ++ c) ∧ c.length = p.length ∧
      (iv ++ c).take 16 = iv ∧ (iv ++ c).length = 16 + p.length ∧
      Decrypt aes key (iv ++ c) = some p := by
  refine ⟨cfbStream false (aes key) [] iv p, ?_, cfbStream_length _ _ _ _ _, ?_, ?_, ?_⟩
  · unfold Encrypt
    simp [hk]
  · rw [← hiv, List.take_left]
  · rw [List.length_append, hiv, cfbStream_length]
  · have ht : (iv ++ cfbStream false (aes key) [] iv p).take 16 = iv := by
      rw [← hiv, List.take_left]
    have hd : (iv ++ cfbStream false (aes key) [] iv p).drop 16
        = cfbStream false (aes key) [] iv p := by
      rw [← hiv, List.drop_left]
    have hl : ¬ (iv ++ cfbStream false (aes key) [] iv p).length < 16 := by
      rw [List.length_append, hiv]; omega
    unfold Decrypt
    simp only [hk, or_true, if_true, hl, if_false, ht, hd, cfbStream_roundtrip]

/-- Witness for C25: a key of 32 bytes, a vector of 16 bytes and a plain
text of two bytes. -/
theorem Encrypt_Decrypt_roundtrip_witness :
    ∃ c, Encrypt demoAes (List.replicate 32 7) (List.replicate 16 1) [72, 105]
        = some (List.replicate 16 1 ++ c) ∧ c.length = [72, 105].length ∧
      (List.replicate 16 1 ++ c).take 16 = List.replicate 16 1 ∧
      (List.replicate 16 1 ++ c).length = 16 + [72, 105].length ∧
      Decrypt demoAes (List.replicate 32 7) (List.replicate 16 1 ++ c) = some [72, 105] :=
  Encrypt_Decrypt_roundtrip demoAes (List.replicate 32 7) (List.replicate 16 1) [72, 105]
    (by decide) (by decide)

/-! ## Error messages -/

theorem Query_err_inv {E : Env} {L : Ledger} {function : String} {args : List String}
    {msg : String} (h : Query E L function args = .err msg) :
    ∃ a0, args.head? = some a0 ∧
      (msg = "Query() : Invalid function call : " ++ function ∨
        msg = "Query() : Object not found : " ++ a0) := by
  unfold Query at h
  cases args with
  | nil => simp at h
  | cons a0 rest =>
    refine ⟨a0, rfl, ?_⟩
    simp only [List.length_cons] at h
    split at h
    · omega
    · split at h
      · simp only [Res.err.injEq] at h
        exact Or.inl h.symm
      · split at h
        · simp only [Res.err.injEq] at h
          exact Or.inr h.symm
        · simp at h
        · simp at h

theorem Invoke_err_inv {E : Env} {L L1 : Ledger} {function : String} {args : List String}
    {msg : String} (h : Invoke E L function args = (.err msg, L1)) :
    (∃ a0, args.head? = some a0 ∧ ChkReqType args = false ∧
        msg = "Invoke() : Invalid recType : " ++ a0 ∧ L1 = L) ∨
      (∃ handler, InvokeFunction E function = some handler ∧
        handler L function args = (.err msg, L1)) := by
  unfold Invoke at h
  split at h
  · split at h
    · rename_i handler hh
      exact Or.inr ⟨handler, hh, h⟩
    · simp at h
  · rename_i hc
    cases args with
    | nil => simp at h
    | cons a0 rest =>
      simp only [Prod.mk.injEq, Res.err.injEq] at h
      exact Or.inl ⟨a0, rfl, by simpa using hc, h.1.symm, h.2.symm⟩

theorem plain_messages_not_error_form (function a0 : String) :
    hasErrorForm ("Query() : Invalid function call : " ++ function) = false ∧
    hasErrorForm ("Query() : Object not found : " ++ a0) = false ∧
    hasErrorForm ("Invoke() : Invalid recType : " ++ a0) = false := by
  have h : ∀ (c : Char) (rest : List Char) (s : String), c ≠ Char.ofNat 123 →
      hasErrorForm (String.mk (c :: rest) ++ s) = false := by
    intro c rest s hc
    have hd : (String.mk (c :: rest) ++ s).toList = c :: (rest ++ s.toList) := rfl
    unfold hasErrorForm
    rw [hd]
    have hp : ("\x7b\"Error\":".toList).isPrefixOf (c :: (rest ++ s.toList)) = false := by
      show ((Char.ofNat 123 == c) && _) = false
      have : (Char.ofNat 123 == c) = false := by
        simpa using fun hh => hc hh.symm
      rw [this]; rfl
    rw [hp]; rfl
  exact ⟨h _ _ function (by decide), h _ _ a0 (by decide), h _ _ a0 (by decide)⟩

/-- C26 (counterexample): the errors `Query` returns for an unknown function
and for a user that is not stored, and the error `Invoke` returns for
arguments without a token, do not have the form of an object with the name
`Error`; the error of the handler `GetUser` itself has it, and `Query`
replaces it. -/
theorem top_level_errors_are_plain :
    Query demoEnv demoLedger "GetBid" ["1111"]
      = .err "Query() : Invalid function call : GetBid" ∧
    hasErrorForm "Query() : Invalid function call : GetBid" = false ∧
    GetUser demoLedger ["7", "USER"]
      = .err "\x7b\"Error\":\"Failed to get  Object Data for 7\"\x7d" ∧
    hasErrorForm "\x7b\"Error\":\"Failed to get  Object Data for 7\"\x7d" = true ∧
    Query demoEnv demoLedger "GetUser" ["7", "USER"] = .err "Query() : Object not found : 7" ∧
    hasErrorForm "Query() : Object not found : 7" = false ∧
    Invoke demoEnv demoLedger "PostBid" ["1111", "bid"]
      = (.err "Invoke() : Invalid recType : 1111", demoLedger) ∧
    hasErrorForm "Invoke() : Invalid recType : 1111" = false := by
  decide

/-- C26 (amended): an error that `Query` returns is the invalid-function
message with the function name or the not-found message with the first
argument, the latter in place of whatever error the handler gave, and it
never has the form of an object with the name `Error`; an error that
`Invoke` returns is its invalid-recType message with the first argument,
which has not that form either, or the error of the handler it called, as the
handler gave it. -/
theorem top_level_error_messages :
    (∀ (E : Env) (L : Ledger) (function : String) (args : List String) (msg : String),
      Query E L function args = .err msg →
      (∃ a0, args.head? = some a0 ∧
        (msg = "Query() : Invalid function call : " ++ function ∨
          msg = "Query() : Object not found : " ++ a0)) ∧
      hasErrorForm msg = false) ∧
    (∀ (E : Env) (L L1 : Ledger) (function : String) (args : List String) (msg : String),
      Invoke E L function args = (.err msg, L1) →
      (∃ a0, args.head? = some a0 ∧ ChkReqType args = false ∧
          msg = "Invoke() : Invalid recType : " ++ a0 ∧ L1 = L ∧
          hasErrorForm msg = false) ∨
        (∃ handler, InvokeFunction E function = some handler ∧
          handler L function args = (.err msg, L1))) := by
  refine ⟨?_, ?_⟩
  · intro E L function args msg h
    obtain ⟨a0, ha, hm⟩ := Query_err_inv h
    refine ⟨⟨a0, ha, hm⟩, ?_⟩
    rcases hm with rfl | rfl
    · exact (plain_messages_not_error_form function a0).1
    · exact (plain_messages_not_error_form function a0).2.1
  · intro E L L1 function args msg h
    rcases Invoke_err_inv h with ⟨a0, ha, hc, rfl, hL⟩ | hh
    · exact Or.inl ⟨a0, ha, hc, rfl, hL, (plain_messages_not_error_form function a0).2.2⟩
    · exact Or.inr hh

/-- Witness for C26 (amended): the error of `Query` for the function
`GetBid`. -/
theorem top_level_error_messages_witness :
    hasErrorForm "Query() : Invalid function call : GetBid" = false :=
  (top_level_error_messages.1 demoEnv demoLedger "GetBid" ["1111"]
    "Query() : Invalid function call : GetBid" (by decide)).2

/-! ## Status transitions -/

theorem replaceRow_getRow_other (L : Ledger) (t : String) (keys : List String) (p : Blob)
    (t2 : String) (k2 : List String) (h : t2 ≠ t) :
    getRow (replaceRow L t keys p).2 t2 k2 = getRow L t2 k2 := by
  unfold replaceRow
  cases L.defs.lookup t with
  | none => rfl
  | some n =>
    simp only
    by_cases hl : keys.length ≠ n
    · rw [if_pos hl]
    · rw [if_neg hl]
      cases getRow L t keys with
      | none => rfl
      | some r =>
        simp only
        unfold getRow
        simp only [getRow_replaced]
        cases hf : List.find? (fun r => decide (r.table = t2 ∧ r.keys = k2)) L.rows with
        | none => rfl
        | some x =>
          have hm := List.find?_some hf
          simp only [decide_eq_true_eq] at hm
          have hx : ¬ (x.table = t ∧ x.keys = keys) := fun hh => h (hm.1 ▸ hh.1)
          simp [hx]

theorem ReplaceLedgerEntry_getRow_other (L : Ledger) (t : String) (keys : List String)
    (p : Blob) (t2 : String) (k2 : List String) (h : t2 ≠ t) :
    getRow (ReplaceLedgerEntry L t keys p).2 t2 k2 = getRow L t2 k2 := by
  unfold ReplaceLedgerEntry
  cases keyColumns (GetNumberOfKeys t) keys with
  | none => rfl
  | some cols =>
    simp only
    have hs := replaceRow_getRow_other L t cols p t2 k2 h
    rcases hr : replaceRow L t cols p with ⟨r, L2⟩
    rw [hr] at hs
    simp only at hs
    cases r with
    | err e => exact hs
    | abort => exact hs
    | ok b =>
      cases b with
      | true => exact hs
      | false => cases keys <;> exact hs

theorem UpdateItemObject_getRow_contract (S : Settlement) (L : Ledger) (ar : Blob)
    (hammerPrice buyer : String) (k : List String) :
    getRow (UpdateItemObject S L ar hammerPrice buyer).2 "ContractTable" k
      = getRow L "ContractTable" k := by
  unfold UpdateItemObject
  cases JSONtoAR ar with
  | none => rfl
  | some c =>
    simp only
    cases Decrypt S.aes (S.bytes (getField ar.obj "AES_Key"))
        (S.bytes (getField ar.obj "ItemImage")) with
    | none => rfl
    | some image =>
      simp only
      cases Encrypt S.aes (S.bytes S.GenAESKey) S.iv image with
      | none => rfl
      | some enc0 =>
        simp only
        generalize S.text enc0 = enc
        have h1 := ReplaceLedgerEntry_getRow_other L "ItemTable"
          [getField ar.obj "ItemID", buyer]
          (.json (setField (setField (setField (setField ar.obj "AES_Key" S.GenAESKey)
            "ItemImage" enc) "ItemBasePrice" hammerPrice) "CurrentOwnerID" buyer))
          "ContractTable" k (by decide)
        rcases hr1 : ReplaceLedgerEntry L "ItemTable" [getField ar.obj "ItemID", buyer]
          (.json (setField (setField (setField (setField ar.obj "AES_Key" S.GenAESKey)
            "ItemImage" enc) "ItemBasePrice" hammerPrice) "CurrentOwnerID" buyer))
          with ⟨r1, L1⟩
        rw [hr1] at h1
        simp only at h1
        cases r1 with
        | err e => exact h1
        | abort => exact h1
        | ok u =>
          simp only
          have h2 := ReplaceLedgerEntry_getRow_other L1 "ItemCatTable"
            ["2016", getField ar.obj "ItemSubject", getField ar.obj "ItemID"]
            (.json (setField (setField (setField (setField ar.obj "AES_Key" S.GenAESKey)
              "ItemImage" enc) "ItemBasePrice" hammerPrice) "CurrentOwnerID" buyer))
            "ContractTable" k (by decide)
          rcases hr2 : ReplaceLedgerEntry L1 "ItemCatTable"
            ["2016", getField ar.obj "ItemSubject", getField ar.obj "ItemID"]
            (.json (setField (setField (setField (setField ar.obj "AES_Key" S.GenAESKey)
              "ItemImage" enc) "ItemBasePrice" hammerPrice) "CurrentOwnerID" buyer))
            with ⟨r2, L2⟩
          rw [hr2] at h2
          simp only at h2
          cases r2 with
          | err e => exact h2.trans h1
          | abort => exact h2.trans h1
          | ok u2 => exact h2.trans h1

/-- C27 (counterexample): the contract 2222 is stored with status CLOSED;
`UpdateContractStatus` with a record of status OPEN for it succeeds, and the
Contract row read back has status OPEN. -/
theorem UpdateContractStatus_reopens_closed :
    (GetAuctionRequest closedLedger ["2222"]).isOk = true ∧
    (getRow closedLedger "ContractTable" ["2222"]).map
        (fun r => getField r.payload.obj "Status") = some "CLOSED" ∧
    (UpdateContractStatus closedLedger "ContractTable" reopenRecord).1
      = .ok (.json reopenRecord) ∧
    (getRow (UpdateContractStatus closedLedger "ContractTable" reopenRecord).2
        "ContractTable" ["2222"]).map (fun r => getField r.payload.obj "Status")
      = some "OPEN" := by
  decide

/-- C27 (amended): `UpdateContractStatus` replaces the Contract row stored
under the `AuctionID` of the record it is given by that record, whatever
status the stored row and the record have; `UpdateItemObject` leaves every
row of the Contract table as it was, and the record it builds has the status
of the record it read. -/
theorem status_rewrites_unchecked :
    (∀ (L : Ledger) (tableName : String) (ar : JObj) (r : Row),
      L.defs.lookup "ContractTable" = some 1 →
      getRow L "ContractTable" [getField ar "AuctionID"] = some r →
      (UpdateContractStatus L tableName ar).1 = .ok (.json ar) ∧
      getRow (UpdateContractStatus L tableName ar).2 "ContractTable" [getField ar "AuctionID"]
        = some ⟨"ContractTable", [getField ar "AuctionID"], .json ar⟩) ∧
    (∀ (S : Settlement) (L : Ledger) (ar : Blob) (hammerPrice buyer : String)
      (k : List String),
      getRow (UpdateItemObject S L ar hammerPrice buyer).2 "ContractTable" k
        = getRow L "ContractTable" k) ∧
    (∀ (o : JObj) (key enc hammerPrice buyer : String),
      getField (setField (setField (setField (setField o "AES_Key" key)
          "ItemImage" enc) "ItemBasePrice" hammerPrice) "CurrentOwnerID" buyer) "Status"
        = getField o "Status") := by
  refine ⟨?_, UpdateItemObject_getRow_contract, ?_⟩
  · intro L tableName ar r hT hr
    have h1 : GetNumberOfKeys "ContractTable" = 1 := by decide
    have hrep := replaceRow_present L "ContractTable" [getField ar "AuctionID"] (.json ar) r
      (by simpa using hT) hr
    have hU : UpdateContractStatus L tableName ar
        = (.ok (.json ar), { L with rows := L.rows.map (fun x =>
            if x.table = "ContractTable" ∧ x.keys = [getField ar "AuctionID"]
            then ⟨"ContractTable", [getField ar "AuctionID"], .json ar⟩ else x) }) := by
      unfold UpdateContractStatus ReplaceLedgerEntry keyColumns
      simp [h1, hrep]
    rw [hU]
    refine ⟨rfl, ?_⟩
    unfold getRow at hr ⊢
    simp only [getRow_replaced, hr, Option.map_some']
    have hm := List.find?_some hr
    simp only [decide_eq_true_eq] at hm
    simp [hm]
  · intro o key enc hammerPrice buyer
    rw [getField_setField_ne _ _ _ _ (by decide), getField_setField_ne _ _ _ _ (by decide),
      getField_setField_ne _ _ _ _ (by decide), getField_setField_ne _ _ _ _ (by decide)]

/-- Witness for C27 (amended): the replace of the closed contract 2222 by
the record of status OPEN. -/
theorem status_rewrites_unchecked_witness :
    (UpdateContractStatus closedLedger "ContractTable" reopenRecord).1
      = .ok (.json reopenRecord) :=
  (status_rewrites_unchecked.1 closedLedger "ContractTable" reopenRecord
    (demoContract "2222" "CLOSED") (by decide) (by decide)).1

/-! ## Writes on a failed request -/

/-- C28: when `PostBid` does not succeed, with an error or a panic, the
ledger is exactly as before the call; when it succeeds, the ledger is the
one before with the single row of the bid added to the Bid table. -/
theorem PostBid_rejection_leaves_ledger (U : Undeclared) (tp : TimeParse) (now : String)
    (L : Ledger) (args : List String) :
    (∀ msg L1, PostBid U tp now L args = (.err msg, L1) → L1 = L) ∧
    ((PostBid U tp now L args).1.isOk = false → (PostBid U tp now L args).2 = L) ∧
    (∀ b L1, PostBid U tp now L args = (.ok b, L1) →
      ∃ a0, args.head? = some a0 ∧
        L1 = { L with rows := L.rows ++ [⟨"BidTable", [a0], b⟩] }) := by
  refine ⟨?_, PostBid_snd_of_not_ok U tp now L args, ?_⟩
  · intro msg L1 h
    have hs := PostBid_snd_of_not_ok U tp now L args (by rw [h]; rfl)
    rw [h] at hs
    exact hs
  · intro b L1 h
    obtain ⟨a0, a1, a2, a3, a4, a5, ub, RBytes, aucR, rfl, -, -, -, -, -, -, -, -, -, hu⟩ :=
      PostBid_ok_inv h
    obtain ⟨-, -, -, hL1⟩ := UpdateLedger_ok_inv hu
    rw [GetNumberOfKeys_BidTable] at hL1
    exact ⟨a0, rfl, hL1⟩

/-- Witness for C28: the bid on the closed contract 2222 is refused and the
ledger is the same. -/
theorem PostBid_rejection_leaves_ledger_witness :
    (PostBid byName stampParse "2016-06-28 18:40:57" closedLedger
      ["2222", "BID", "1", "1000", "300", "1200"]).2 = closedLedger :=
  (PostBid_rejection_leaves_ledger byName stampParse "2016-06-28 18:40:57" closedLedger
    ["2222", "BID", "1", "1000", "300", "1200"]).2.1 (by decide)

/-- C29 (code at the failing input): after the posting of contract 1000 in
the category `Landscape`, the valid posting of contract 1001 in the same
category returns the duplicate-key error of the category table, whose two
keys are `2016` and the category; the Contract row of 1001 is stored all the
same, and the category table keeps the single row of contract 1000. -/
theorem PostRequest_same_category_half_written :
    (PostRequest demoSettlement demoLedger postArgs).1 = .ok (marshalKey "1000") ∧
    GetNumberOfKeys "ContractCatTable" = 2 ∧
    (PostRequest demoSettlement (PostRequest demoSettlement demoLedger postArgs).2
        postArgsSameCategory).1
      = .err ("UpdateLedger: InsertRow into ContractCatTable Table failed. "
          ++ "Row with given key 2016 already exists") ∧
    getRow (PostRequest demoSettlement demoLedger postArgs).2 "ContractTable" ["1001"]
      = none ∧
    (getRow (PostRequest demoSettlement (PostRequest demoSettlement demoLedger postArgs).2
        postArgsSameCategory).2 "ContractTable" ["1001"]).map
        (fun r => getField r.payload.obj "ContractId") = some "1001" ∧
    (getRows (PostRequest demoSettlement (PostRequest demoSettlement demoLedger postArgs).2
        postArgsSameCategory).2 "ContractCatTable" ["2016"]).map
        (fun r => (r.keys, getField r.payload.obj "ContractId"))
      = [(["2016", "Landscape"], "1000")] := by
  decide

/-! ## Empty argument lists -/

/-- C30 (code at the failing input): with no arguments, `Query` panics on the
`args[0]` it prints before its length check, and `Invoke` panics on the
`args[0]` of its invalid-recType message; neither returns an error, whatever
the function name. -/
theorem Invoke_Query_empty_args_panic (E : Env) (L : Ledger) (function : String) :
    Query E L function [] = .abort ∧
    ChkReqType [] = false ∧
    Invoke E L function [] = (.abort, L) := by
  exact ⟨rfl, rfl, rfl⟩

end Chaincode
